import Mathlib

/-!
# Particle simulation core (`src/main.cpp`)

A shallow embedding of the broadphase grid, the impulse solver and the
integrator of `src/main.cpp`, followed by theorems about them.

Conventions of the embedding:

* `float` values are elements of an arbitrary linearly ordered field `α` with a
  floor function (`ℚ` and `ℝ` are instances), so arithmetic is exact;
  float literals are the decimal fractions they denote.
* `int` values are mathematical integers (`Int`); `static_cast<int>` of a float
  is truncation toward zero.
* `glm::vec3` is `Vec3`; `glm::inversesqrt` is a parameter `inversesqrt : α → α`
  of every function that calls it, and theorems that depend on its value assume
  `inversesqrt d * inversesqrt d * d = 1` and `0 < inversesqrt d` at the
  arguments `d` where it is called.
* the global variables read by the core are the fields of `Globals`.
* `Particle*` elements of the grid buckets are indices into `objectArray`.
* an out-of-range `operator[]` is undefined behaviour in the source; the
  functions that index return `Option` and yield `none` there.
-/

namespace ParticleSim

/-- The `glm::vec3` type: three components. -/
structure Vec3 (α : Type) where
  x : α
  y : α
  z : α
deriving DecidableEq, Repr

namespace Vec3

variable {α : Type}

/-- The `glm::vec3(0.0f)` value. -/
def zero [Zero α] : Vec3 α := ⟨0, 0, 0⟩

/-- Componentwise sum, `a + b`. -/
def add [Add α] (a b : Vec3 α) : Vec3 α := ⟨a.x + b.x, a.y + b.y, a.z + b.z⟩

/-- Componentwise difference, `a - b`. -/
def sub [Sub α] (a b : Vec3 α) : Vec3 α := ⟨a.x - b.x, a.y - b.y, a.z - b.z⟩

/-- Vector times scalar, `v * s`. -/
def mulScalar [Mul α] (v : Vec3 α) (s : α) : Vec3 α := ⟨v.x * s, v.y * s, v.z * s⟩

/-- Scalar times vector, `s * v`. -/
def scalarMul [Mul α] (s : α) (v : Vec3 α) : Vec3 α := ⟨s * v.x, s * v.y, s * v.z⟩

/-- The `glm::dot` product. -/
def dot [Add α] [Mul α] (a b : Vec3 α) : α := a.x * b.x + a.y * b.y + a.z * b.z

/-- The `glm::normalize` function: `v * inversesqrt(dot(v, v))`. -/
def normalize [Add α] [Mul α] (inversesqrt : α → α) (v : Vec3 α) : Vec3 α :=
  mulScalar v (inversesqrt (dot v v))

/-- Componentwise negation, `-a`. -/
def neg [Neg α] (a : Vec3 α) : Vec3 α := ⟨-a.x, -a.y, -a.z⟩

instance [Zero α] : Zero (Vec3 α) := ⟨Vec3.zero⟩

instance [Add α] : Add (Vec3 α) := ⟨Vec3.add⟩

instance [Neg α] : Neg (Vec3 α) := ⟨Vec3.neg⟩

instance [Sub α] : Sub (Vec3 α) := ⟨Vec3.sub⟩

/-- Vectors form a commutative group under the componentwise operations, so that
sums over lists and finite sets of vectors are available. -/
instance [AddCommGroup α] : AddCommGroup (Vec3 α) where
  add_assoc a b c := by
    show Vec3.mk _ _ _ = Vec3.mk _ _ _
    congr 1 <;> exact add_assoc _ _ _
  zero_add a := by
    show Vec3.mk _ _ _ = Vec3.mk _ _ _
    congr 1 <;> exact zero_add _
  add_zero a := by
    show Vec3.mk _ _ _ = Vec3.mk _ _ _
    congr 1 <;> exact add_zero _
  nsmul := nsmulRec
  zsmul := zsmulRec
  neg_add_cancel a := by
    show Vec3.mk _ _ _ = Vec3.mk _ _ _
    congr 1 <;> exact neg_add_cancel _
  add_comm a b := by
    show Vec3.mk _ _ _ = Vec3.mk _ _ _
    congr 1 <;> exact add_comm _ _
  sub_eq_add_neg a b := by
    show Vec3.mk _ _ _ = Vec3.mk _ _ _
    congr 1 <;> exact sub_eq_add_neg _ _

end Vec3

/-- The global variables of `main.cpp` that the simulation core reads. -/
structure Globals (α : Type) where
  screenSizeX : Int
  screenSizeY : Int
  cellsX : Int
  cellsY : Int
  radius : α
  gridSize : Int
  restitution : α

/-- The physical fields of `class Particle`. -/
structure Particle (α : Type) where
  position : Vec3 α
  velocity : Vec3 α
  acceleration : Vec3 α
  radius : α

section Core

variable {α : Type} [LinearOrderedField α] [FloorRing α]

/-- Conversion `static_cast<int>(x)` of a float: truncation toward zero. -/
def toInt (x : α) : Int := if 0 ≤ x then ⌊x⌋ else ⌈x⌉

/-- The globals as `main` has them when the main loop starts: the initialisers
of lines 17-41 and the assignments of lines 335-336. -/
def initialGlobals : Globals α :=
  let radius : α := 4
  let gridSize : Int := toInt (2 * radius)
  { screenSizeX := 800
    screenSizeY := 600
    cellsX := Int.tdiv 800 gridSize
    cellsY := Int.tdiv 600 gridSize
    radius := radius
    gridSize := gridSize
    restitution := 0.1 }

/-- The effect of `framebuffer_size_callback` on the globals. -/
def framebuffer_size_callback (g : Globals α) (width height : Int) : Globals α :=
  { g with
    screenSizeX := width
    screenSizeY := height
    cellsX := Int.tdiv width g.gridSize
    cellsY := Int.tdiv height g.gridSize }

/-- The method `Particle::boundaryCollisions`: four sequential tests. -/
def boundaryCollisions (g : Globals α) (p : Particle α) : Particle α :=
  let p1 :=
    if p.position.x + p.radius ≥ (g.screenSizeX : α) then
      { p with
        position := { p.position with x := (g.screenSizeX : α) - p.radius }
        velocity := { p.velocity with x := p.velocity.x * -g.restitution } }
    else p
  let p2 :=
    if p1.position.x - p1.radius ≤ 0 then
      { p1 with
        position := { p1.position with x := p1.radius }
        velocity := { p1.velocity with x := p1.velocity.x * -g.restitution } }
    else p1
  let p3 :=
    if p2.position.y + p2.radius ≥ (g.screenSizeY : α) then
      { p2 with
        position := { p2.position with y := (g.screenSizeY : α) - p2.radius }
        velocity := { p2.velocity with y := p2.velocity.y * -g.restitution } }
    else p2
  if p3.position.y - p3.radius ≤ 0 then
    { p3 with
      position := { p3.position with y := p3.radius }
      velocity := { p3.velocity with y := p3.velocity.y * -g.restitution } }
  else p3

/-- The method `Particle::updatePositions`, without the rendering matrix. -/
def updatePositions (inversesqrt : α → α) (g : Globals α) (deltaTime : α)
    (p : Particle α) : Particle α :=
  let position := Vec3.add p.position
    (Vec3.add (Vec3.mulScalar p.velocity deltaTime)
      (Vec3.mulScalar (Vec3.mulScalar (Vec3.scalarMul 0.5 p.acceleration) deltaTime) deltaTime))
  let velocity := Vec3.add p.velocity (Vec3.mulScalar p.acceleration deltaTime)
  let velocity := Vec3.mulScalar velocity 0.99
  let maxSpeed : α := 1000
  let speedSq := Vec3.dot velocity velocity
  let velocity :=
    if speedSq > maxSpeed * maxSpeed then
      Vec3.mulScalar (Vec3.normalize inversesqrt velocity) maxSpeed
    else velocity
  boundaryCollisions g { p with position := position, velocity := velocity }

/-- The cell column `static_cast<int>(objectPos.x / gridSize)` of lines 217 and 368. -/
def gridX (g : Globals α) (objectPos : Vec3 α) : Int := toInt (objectPos.x / (g.gridSize : α))

/-- The cell row `static_cast<int>(objectPos.y / gridSize)` of lines 218 and 369. -/
def gridY (g : Globals α) (objectPos : Vec3 α) : Int := toInt (objectPos.y / (g.gridSize : α))

/-- The bucket index `gridX + gridY * cellsX` of line 220. -/
def cellKey (g : Globals α) (objectPos : Vec3 α) : Int :=
  gridX g objectPos + gridY g objectPos * g.cellsX

/-- The loop of `generateGrid` from the object with index `idx` on:
`grid[key].push_back(object.get())`, with `none` for an index outside the grid. -/
def generateGridFrom (g : Globals α) :
    List (Particle α) → Nat → List (List Nat) → Option (List (List Nat))
  | [], _, grid => some grid
  | object :: rest, idx, grid =>
    let key := cellKey g object.position
    if 0 ≤ key ∧ key < (grid.length : Int) then
      generateGridFrom g rest (idx + 1)
        (List.modify (fun bucket => bucket ++ [idx]) key.toNat grid)
    else none

/-- The function `generateGrid`. -/
def generateGrid (g : Globals α) (objectArray : List (Particle α)) (grid : List (List Nat)) :
    Option (List (List Nat)) :=
  generateGridFrom g objectArray 0 grid

/-- Lines 358-359 of `main`: every bucket is cleared, then `generateGrid` runs. -/
def rebuildGrid (g : Globals α) (objectArray : List (Particle α)) (grid : List (List Nat)) :
    Option (List (List Nat)) :=
  generateGrid g objectArray (grid.map (fun _ => []))

/-- The pairs `(i, j)` in the order of the loops of lines 371-372. -/
def neighbourOffsets : List (Int × Int) :=
  [(-1, -1), (-1, 0), (-1, 1), (0, -1), (0, 0), (0, 1), (1, -1), (1, 0), (1, 1)]

/-- The bucket indices `key` of line 374 that pass the test of line 373, in loop order. -/
def neighbourKeys (cellsX cellsY gridX gridY : Int) : List Int :=
  (neighbourOffsets.filter (fun ij =>
      decide (gridX + ij.1 ≥ 0 ∧ gridX + ij.1 < cellsX ∧
        gridY + ij.2 ≥ 0 ∧ gridY + ij.2 < cellsY))).map
    (fun ij => (gridX + ij.1) + (gridY + ij.2) * cellsX)

/-- Lines 379-397: the contribution of collider `B` to the impulse buffer entry of `A`. -/
def collide (inversesqrt : α → α) (g : Globals α) (A B : Particle α) (impulse : Vec3 α) :
    Vec3 α :=
  let normal := Vec3.sub A.position B.position
  let dist2 := Vec3.dot normal normal
  let eps : α := 1e-6
  let maxDist := 2 * g.radius
  let maxDist2 := maxDist * maxDist
  if dist2 > eps ∧ dist2 ≤ maxDist2 then
    let normal := Vec3.mulScalar normal (inversesqrt dist2)
    let relativeVelocity := Vec3.sub A.velocity B.velocity
    let velAlongNormal := Vec3.dot relativeVelocity normal
    if velAlongNormal < 0 then
      Vec3.add impulse (Vec3.scalarMul (0.5 * (1 + g.restitution) * velAlongNormal) normal)
    else impulse
  else impulse

/-- The loop of line 376 over one bucket, for the object `A` with index `p`. -/
def bucketLoop (inversesqrt : α → α) (g : Globals α) (objectArray : List (Particle α))
    (p : Nat) (A : Particle α) : List Nat → Vec3 α → Option (Vec3 α)
  | [], impulse => some impulse
  | collider :: rest, impulse =>
    if p ≠ collider then
      match objectArray[collider]? with
      | none => none
      | some B =>
        bucketLoop inversesqrt g objectArray p A rest (collide inversesqrt g A B impulse)
    else bucketLoop inversesqrt g objectArray p A rest impulse

/-- The loops of lines 371-402 over the buckets `grid[key]`. -/
def neighbourLoop (inversesqrt : α → α) (g : Globals α) (objectArray : List (Particle α))
    (grid : List (List Nat)) (p : Nat) (A : Particle α) : List Int → Vec3 α → Option (Vec3 α)
  | [], impulse => some impulse
  | key :: rest, impulse =>
    match grid[key.toNat]? with
    | none => none
    | some bucket =>
      match bucketLoop inversesqrt g objectArray p A bucket impulse with
      | none => none
      | some impulse1 => neighbourLoop inversesqrt g objectArray grid p A rest impulse1

/-- The body of the loop of line 363 for the object `A` with index `p`: the value of
`impulses[p]` when the loop ends. -/
def impulseOf (inversesqrt : α → α) (g : Globals α) (objectArray : List (Particle α))
    (grid : List (List Nat)) (p : Nat) (A : Particle α) : Option (Vec3 α) :=
  neighbourLoop inversesqrt g objectArray grid p A
    (neighbourKeys g.cellsX g.cellsY (gridX g A.position) (gridY g A.position)) Vec3.zero

/-- The loop of lines 363-403 from the object with index `p` on: the impulse buffer. -/
def impulsesFrom (inversesqrt : α → α) (g : Globals α) (objectArray : List (Particle α))
    (grid : List (List Nat)) : List (Particle α) → Nat → Option (List (Vec3 α))
  | [], _ => some []
  | A :: rest, p =>
    match impulseOf inversesqrt g objectArray grid p A with
    | none => none
    | some impulse =>
      match impulsesFrom inversesqrt g objectArray grid rest (p + 1) with
      | none => none
      | some impulses => some (impulse :: impulses)

/-- The loop of lines 404-407: `velocity -= impulses[p]`. -/
def applyImpulses (objectArray : List (Particle α)) (impulses : List (Vec3 α)) :
    List (Particle α) :=
  List.zipWith (fun object impulse =>
    { object with velocity := Vec3.sub object.velocity impulse }) objectArray impulses

/-- One iteration of the loop of line 361: a solver pass. -/
def solverPass (inversesqrt : α → α) (g : Globals α) (grid : List (List Nat))
    (objectArray : List (Particle α)) : Option (List (Particle α)) :=
  match impulsesFrom inversesqrt g objectArray grid objectArray 0 with
  | none => none
  | some impulses => some (applyImpulses objectArray impulses)

/-- The loop of line 361 run for `iterations` passes. -/
def solverLoop (inversesqrt : α → α) (g : Globals α) (grid : List (List Nat)) :
    Nat → List (Particle α) → Option (List (Particle α))
  | 0, objectArray => some objectArray
  | iterations + 1, objectArray =>
    match solverPass inversesqrt g grid objectArray with
    | none => none
    | some objectArray1 => solverLoop inversesqrt g grid iterations objectArray1

/-- The sum of the velocities of all bodies (the total momentum for unit masses). -/
def totalVelocity (objectArray : List (Particle α)) : Vec3 α :=
  (objectArray.map (fun object => object.velocity)).sum

/-- Closed form used in the proofs: the indices, counted from `idx`, of the objects whose
bucket index is `key`, which is what `generateGrid` appends to the bucket `grid[key]`. -/
def membersFrom (g : Globals α) : List (Particle α) → Nat → Int → List Nat
  | [], _, _ => []
  | object :: rest, idx, key =>
    if cellKey g object.position = key then idx :: membersFrom g rest (idx + 1) key
    else membersFrom g rest (idx + 1) key

/-- Closed form used in the proofs: what one visit of the collider with index `c` adds to
the impulse buffer entry of the object `A` with index `p`. -/
def contributionAt (inversesqrt : α → α) (g : Globals α) (objectArray : List (Particle α))
    (p : Nat) (A : Particle α) (c : Nat) : Vec3 α :=
  if p ≠ c then
    match objectArray[c]? with
    | none => 0
    | some B => collide inversesqrt g A B 0
  else 0

/-- Closed form used in the proofs: the impulse buffer entry of the object `A` with index
`p` after the loop of line 363, one contribution for each other object whose cell is the
cell of `A` or one of the 8 cells around it. -/
def neighbourSum (inversesqrt : α → α) (g : Globals α) (objectArray : List (Particle α))
    (p : Nat) (A : Particle α) : Vec3 α :=
  ∑ q : Fin objectArray.length,
    if |gridX g (objectArray[q]).position - gridX g A.position| ≤ 1 ∧
        |gridY g (objectArray[q]).position - gridY g A.position| ≤ 1 then
      contributionAt inversesqrt g objectArray p A q
    else 0

/-- The correction of the velocity of `A` in a textbook equal-mass impulse solver, in the
words of the specification: `-0.5 * (1 + restitution) * velAlongNormal * normal`, with the
`normal` and the `velAlongNormal` of lines 379-390. -/
def textbookCorrection (inversesqrt : α → α) (g : Globals α) (A B : Particle α) : Vec3 α :=
  let normal := Vec3.sub A.position B.position
  let normal := Vec3.mulScalar normal (inversesqrt (Vec3.dot normal normal))
  let velAlongNormal := Vec3.dot (Vec3.sub A.velocity B.velocity) normal
  Vec3.scalarMul (-(0.5 * (1 + g.restitution) * velAlongNormal)) normal

/-- The `velAlongNormal` of line 390 for the pair `A`, `B`. -/
def velAlongNormal (inversesqrt : α → α) (A B : Particle α) : α :=
  let normal := Vec3.sub A.position B.position
  let normal := Vec3.mulScalar normal (inversesqrt (Vec3.dot normal normal))
  Vec3.dot (Vec3.sub A.velocity B.velocity) normal

/-- Fixture of the end-to-end scenario, first body: at `(100, 100)` with velocity `(5, 0)`,
radius 4, zero gravity. -/
def headOnA : Particle α :=
  { position := ⟨100, 100, 0⟩, velocity := ⟨5, 0, 0⟩, acceleration := ⟨0, 0, 0⟩, radius := 4 }

/-- Fixture of the end-to-end scenario, second body: at `(105, 100)` with velocity
`(-5, 0)`, radius 4, zero gravity. -/
def headOnB : Particle α :=
  { position := ⟨105, 100, 0⟩, velocity := ⟨-5, 0, 0⟩, acceleration := ⟨0, 0, 0⟩, radius := 4 }

/-- The globals after the window is resized to 804 x 600. -/
def resizedGlobals : Globals α := framebuffer_size_callback initialGlobals 804 600

/-- A body that `boundaryCollisions` has just put back from beyond the top right corner of
the 804 x 600 domain. -/
def cornerBody : Particle α :=
  boundaryCollisions resizedGlobals
    { position := ⟨803, 599, 0⟩, velocity := ⟨100, 100, 0⟩, acceleration := ⟨0, -980, 0⟩,
      radius := 4 }

/-- First body of a pair at the right wall of the 804 x 600 domain: at `(800, 300)` with
velocity `(0, 5)`, in the cell column `100 = cellsX`. -/
def edgeA : Particle α :=
  { position := ⟨800, 300, 0⟩, velocity := ⟨0, 5, 0⟩, acceleration := ⟨0, -980, 0⟩, radius := 4 }

/-- Second body of the pair at the right wall: at `(800, 305)` with velocity `(0, -5)`. -/
def edgeB : Particle α :=
  { position := ⟨800, 305, 0⟩, velocity := ⟨0, -5, 0⟩, acceleration := ⟨0, -980, 0⟩, radius := 4 }

/-- Fixture of the velocity-clamp property: a body with velocity `(3000, 4000, 0)`. -/
def fastBody : Particle α :=
  { position := ⟨400, 300, 0⟩, velocity := ⟨3000, 4000, 0⟩, acceleration := ⟨0, -980, 0⟩,
    radius := 4 }

/-- The contract of `glm::inversesqrt` in exact arithmetic: on a positive argument `d`
the result is positive and its square is `1 / d`. -/
def IsInverseSqrt (inversesqrt : α → α) : Prop :=
  ∀ d : α, 0 < d → 0 < inversesqrt d ∧ inversesqrt d * inversesqrt d * d = 1

end Core

/-- Fixture of the wall-bounce scenario: a body at `(2, 50)` with radius 4 and
velocity `(-50, 0)`, under the initial gravity `(0, -980)`. -/
def wallBounceBody : Particle ℚ :=
  { position := ⟨2, 50, 0⟩, velocity := ⟨-50, 0, 0⟩, acceleration := ⟨0, -980, 0⟩, radius := 4 }

section Theorems

variable {α : Type} [LinearOrderedField α]

/-- C1: for every body, every radius `r > 0` and every domain of width `W` and
height `H` with `W ≥ 2r` and `H ≥ 2r`, after `boundaryCollisions` the position
satisfies `r ≤ x ≤ W - r` and `r ≤ y ≤ H - r`. -/
theorem boundaryCollisions_containment (g : Globals α) (p : Particle α)
    (hW : 2 * p.radius ≤ (g.screenSizeX : α))
    (hH : 2 * p.radius ≤ (g.screenSizeY : α)) :
    p.radius ≤ (boundaryCollisions g p).position.x ∧
    (boundaryCollisions g p).position.x ≤ (g.screenSizeX : α) - p.radius ∧
    p.radius ≤ (boundaryCollisions g p).position.y ∧
    (boundaryCollisions g p).position.y ≤ (g.screenSizeY : α) - p.radius := by
  unfold boundaryCollisions
  dsimp only
  split_ifs <;> (try dsimp only at *) <;> (refine ⟨?_, ?_, ?_, ?_⟩ <;> linarith)

/-- Witness of C1 on the wall-bounce fixture in the 800 x 600 domain. -/
theorem boundaryCollisions_containment_witness :
    (4 : ℚ) ≤ (boundaryCollisions initialGlobals wallBounceBody).position.x ∧
    (boundaryCollisions initialGlobals wallBounceBody).position.x ≤ 800 - 4 ∧
    (4 : ℚ) ≤ (boundaryCollisions initialGlobals wallBounceBody).position.y ∧
    (boundaryCollisions initialGlobals wallBounceBody).position.y ≤ 600 - 4 := by
  have h := boundaryCollisions_containment (initialGlobals : Globals ℚ) wallBounceBody
    (by norm_num [wallBounceBody, initialGlobals]) (by norm_num [wallBounceBody, initialGlobals])
  simpa [wallBounceBody, initialGlobals] using h

/-- C8: for every body with `x - radius ≤ 0`, `x + radius < W` and
`radius < y < H - radius`, after `boundaryCollisions` the position has
`x = radius`, the velocity has `x = -restitution * (old velocity.x)`, and
`position.y` and `velocity.y` are unchanged. -/
theorem boundaryCollisions_left_wall (g : Globals α) (p : Particle α)
    (hx1 : p.position.x - p.radius ≤ 0) (hx2 : p.position.x + p.radius < (g.screenSizeX : α))
    (hy1 : p.radius < p.position.y) (hy2 : p.position.y < (g.screenSizeY : α) - p.radius) :
    (boundaryCollisions g p).position.x = p.radius ∧
    (boundaryCollisions g p).velocity.x = -g.restitution * p.velocity.x ∧
    (boundaryCollisions g p).position.y = p.position.y ∧
    (boundaryCollisions g p).velocity.y = p.velocity.y := by
  have e1 : ¬ (p.position.x + p.radius ≥ (g.screenSizeX : α)) := not_le.mpr hx2
  have e3 : ¬ (p.position.y + p.radius ≥ (g.screenSizeY : α)) := by
    intro h; linarith
  have e4 : ¬ (p.position.y - p.radius ≤ 0) := by
    intro h; linarith
  unfold boundaryCollisions
  simp only [e1, e3, e4, hx1, if_true, if_false]
  refine ⟨?_, ?_, ?_, ?_⟩ <;> first | trivial | rfl | ring

/-- Witness of C8: the body at `(2, 50)` with radius 4, velocity `(-50, 0)` and
restitution 0.1 in the 800 x 600 domain ends at `position.x = 4` with
`velocity.x = 5`. -/
theorem boundaryCollisions_left_wall_witness :
    (boundaryCollisions initialGlobals wallBounceBody).position.x = 4 ∧
    (boundaryCollisions initialGlobals wallBounceBody).velocity.x = 5 ∧
    (boundaryCollisions initialGlobals wallBounceBody).position.y = 50 ∧
    (boundaryCollisions initialGlobals wallBounceBody).velocity.y = 0 := by
  have h := boundaryCollisions_left_wall (initialGlobals : Globals ℚ) wallBounceBody
    (by norm_num [wallBounceBody]) (by norm_num [wallBounceBody, initialGlobals])
    (by norm_num [wallBounceBody]) (by norm_num [wallBounceBody, initialGlobals])
  refine ⟨h.1, ?_, h.2.2.1, h.2.2.2⟩
  rw [h.2.1]
  norm_num [wallBounceBody, initialGlobals]

/-- A component multiplied by `-restitution` does not grow in magnitude. -/
theorem reflect_sq_le (t e : α) (he0 : 0 ≤ e) (he1 : e ≤ 1) :
    (t * -e) * (t * -e) ≤ t * t := by
  have h1 : e * e ≤ 1 := by nlinarith
  have h2 : 0 ≤ t * t := mul_self_nonneg t
  nlinarith

/-- The wall reflection leaves `velocity.z` alone and does not raise the squares of
`velocity.x` and `velocity.y`. -/
theorem boundaryCollisions_velocity_le (g : Globals α) (p : Particle α)
    (he0 : 0 ≤ g.restitution) (he1 : g.restitution ≤ 1) :
    (boundaryCollisions g p).velocity.x * (boundaryCollisions g p).velocity.x
      ≤ p.velocity.x * p.velocity.x ∧
    (boundaryCollisions g p).velocity.y * (boundaryCollisions g p).velocity.y
      ≤ p.velocity.y * p.velocity.y ∧
    (boundaryCollisions g p).velocity.z = p.velocity.z := by
  have r1 := fun t : α => reflect_sq_le t g.restitution he0 he1
  have r2 : ∀ t : α, (t * -g.restitution * -g.restitution) * (t * -g.restitution * -g.restitution)
      ≤ t * t := fun t => le_trans (r1 (t * -g.restitution)) (r1 t)
  unfold boundaryCollisions
  dsimp only
  split_ifs <;> (try dsimp only at *) <;>
    (refine ⟨?_, ?_, rfl⟩ <;> first | exact le_refl _ | exact r1 _ | exact r2 _)

/-- C6: for every body state (whatever the size of its initial velocity), every
`deltaTime`, every acceleration and every restitution in `[0, 1)`, after one
`updatePositions(deltaTime)` call `dot(velocity, velocity) ≤ 1000^2`, for an exact
`inversesqrt`; the wall reflection that runs after the clamp does not raise it. -/
theorem updatePositions_velocity_clamp (inversesqrt : α → α) (g : Globals α) (deltaTime : α)
    (p : Particle α) (hisq : IsInverseSqrt inversesqrt)
    (he0 : 0 ≤ g.restitution) (he1 : g.restitution < 1) :
    Vec3.dot (updatePositions inversesqrt g deltaTime p).velocity
      (updatePositions inversesqrt g deltaTime p).velocity ≤ 1000 ^ 2 := by
  unfold updatePositions
  dsimp only
  generalize Vec3.mulScalar (Vec3.add p.velocity (Vec3.mulScalar p.acceleration deltaTime)) 0.99
    = v
  generalize Vec3.add p.position
    (Vec3.add (Vec3.mulScalar p.velocity deltaTime)
      (Vec3.mulScalar (Vec3.mulScalar (Vec3.scalarMul 0.5 p.acceleration) deltaTime) deltaTime))
    = pos
  set w : Vec3 α := if Vec3.dot v v > 1000 * 1000 then
    Vec3.mulScalar (Vec3.normalize inversesqrt v) 1000 else v with hw
  have hw2 : Vec3.dot w w ≤ 1000 ^ 2 := by
    rw [hw]
    split_ifs with h
    · have hpos : (0 : α) < Vec3.dot v v := lt_trans (by norm_num) h
      obtain ⟨_, hs⟩ := hisq _ hpos
      have : Vec3.dot (Vec3.mulScalar (Vec3.normalize inversesqrt v) 1000)
          (Vec3.mulScalar (Vec3.normalize inversesqrt v) 1000)
          = (inversesqrt (Vec3.dot v v) * inversesqrt (Vec3.dot v v) * Vec3.dot v v) * 1000 ^ 2 := by
        simp only [Vec3.normalize, Vec3.mulScalar]
        generalize inversesqrt (Vec3.dot v v) = s
        simp only [Vec3.dot]
        ring
      rw [this, hs, one_mul]
    · have h2 := not_lt.mp h
      calc Vec3.dot v v ≤ 1000 * 1000 := h2
        _ = 1000 ^ 2 := by norm_num
  obtain ⟨hx, hy, hz⟩ := boundaryCollisions_velocity_le g
    { p with position := pos, velocity := w } he0 (le_of_lt he1)
  dsimp only at hx hy hz
  have hdot : Vec3.dot w w = w.x * w.x + w.y * w.y + w.z * w.z := rfl
  simp only [Vec3.dot]
  rw [hz]
  linarith

/-- The function `d ↦ 1 / √d` on the reals meets the contract of `glm::inversesqrt`. -/
theorem isInverseSqrt_real : IsInverseSqrt (fun d : ℝ => (Real.sqrt d)⁻¹) := by
  intro d hd
  have hs : 0 < Real.sqrt d := Real.sqrt_pos.mpr hd
  refine ⟨inv_pos.mpr hs, ?_⟩
  have h2 : Real.sqrt d * Real.sqrt d = d := Real.mul_self_sqrt (le_of_lt hd)
  have hne : Real.sqrt d ≠ 0 := ne_of_gt hs
  calc (Real.sqrt d)⁻¹ * (Real.sqrt d)⁻¹ * d
      = (Real.sqrt d)⁻¹ * (Real.sqrt d)⁻¹ * (Real.sqrt d * Real.sqrt d) := by rw [h2]
    _ = 1 := by field_simp

/-- Witness of C6: a body with velocity `(3000, 4000, 0)`, far above `maxSpeed`, under
gravity, stepped by `1/250` with restitution 0.1. -/
theorem updatePositions_velocity_clamp_witness :
    Vec3.dot (fastBody : Particle ℝ).velocity (fastBody : Particle ℝ).velocity > 1000 ^ 2 ∧
    Vec3.dot
      (updatePositions (fun d : ℝ => (Real.sqrt d)⁻¹) initialGlobals (1 / 250) fastBody).velocity
      (updatePositions (fun d : ℝ => (Real.sqrt d)⁻¹) initialGlobals (1 / 250) fastBody).velocity
      ≤ 1000 ^ 2 :=
  ⟨by norm_num [fastBody, Vec3.dot],
   updatePositions_velocity_clamp (fun d : ℝ => (Real.sqrt d)⁻¹) initialGlobals (1 / 250)
    fastBody isInverseSqrt_real (by norm_num [initialGlobals]) (by norm_num [initialGlobals])⟩

/-- A bucket index built from in-grid cell coordinates lies in `[0, cellsX * cellsY)`. -/
theorem key_range (cx cy a b : Int) (ha : 0 ≤ a) (ha2 : a < cx) (hb : 0 ≤ b) (hb2 : b < cy) :
    0 ≤ a + b * cx ∧ a + b * cx < cx * cy := by
  have hc : 0 < cx := by omega
  constructor
  · have : 0 ≤ b * cx := mul_nonneg hb (le_of_lt hc)
    omega
  · have : (b + 1) * cx ≤ cy * cx := mul_le_mul_of_nonneg_right (by omega) (le_of_lt hc)
    nlinarith

/-- Every bucket index that passes the test of line 373 is an index of the grid. -/
theorem neighbourKeys_bounds (cellsX cellsY gridX gridY key : Int)
    (hkey : key ∈ neighbourKeys cellsX cellsY gridX gridY) :
    0 ≤ key ∧ key < cellsX * cellsY := by
  simp only [neighbourKeys, List.mem_map, List.mem_filter, decide_eq_true_eq] at hkey
  obtain ⟨ij, ⟨_, h1, h2, h3, h4⟩, rfl⟩ := hkey
  exact key_range cellsX cellsY _ _ h1 h2 h3 h4

/-- C9: every bucket index `(gridX + i) + (gridY + j) * cellsX` that the 3x3 loop of the
solver uses lies in `[0, cellsX * cellsY)`, for every cell coordinate and every grid
size; and from each corner cell of a grid with `cellsX, cellsY ≥ 2` the loop visits
exactly 4 cells. -/
theorem neighbourKeys_in_range (cellsX cellsY gridX gridY : Int) :
    (∀ key ∈ neighbourKeys cellsX cellsY gridX gridY, 0 ≤ key ∧ key < cellsX * cellsY) ∧
    (2 ≤ cellsX → 2 ≤ cellsY →
      (neighbourKeys cellsX cellsY 0 0).length = 4 ∧
      (neighbourKeys cellsX cellsY (cellsX - 1) 0).length = 4 ∧
      (neighbourKeys cellsX cellsY 0 (cellsY - 1)).length = 4 ∧
      (neighbourKeys cellsX cellsY (cellsX - 1) (cellsY - 1)).length = 4) := by
  constructor
  · intro key hkey
    exact neighbourKeys_bounds cellsX cellsY gridX gridY key hkey
  · intro hx hy
    have e1 : ¬ (cellsX - 1 + 1 < cellsX) := by omega
    have e2 : ¬ (cellsY - 1 + 1 < cellsY) := by omega
    have e3 : (0 : Int) < cellsX := by omega
    have e4 : (0 : Int) < cellsY := by omega
    have e5 : (1 : Int) < cellsX := by omega
    have e6 : (1 : Int) < cellsY := by omega
    have e7 : (0 : Int) ≤ cellsX - 1 + -1 := by omega
    have e8 : (0 : Int) ≤ cellsY - 1 + -1 := by omega
    have e9 : cellsX - 1 + -1 < cellsX := by omega
    have e10 : cellsY - 1 + -1 < cellsY := by omega
    have e11 : (1 : Int) ≤ cellsX := by omega
    have e12 : (1 : Int) ≤ cellsY := by omega
    simp [neighbourKeys, neighbourOffsets, List.filter, e1, e2, e3, e4, e5, e6, e7, e8, e9, e10,
      e11, e12]

/-- Witness of C9 on the 100 x 75 grid of the 800 x 600 domain. -/
theorem neighbourKeys_in_range_witness :
    (neighbourKeys 100 75 0 0).length = 4 ∧
    (neighbourKeys 100 75 (100 - 1) 0).length = 4 ∧
    (neighbourKeys 100 75 0 (75 - 1)).length = 4 ∧
    (neighbourKeys 100 75 (100 - 1) (75 - 1)).length = 4 :=
  (neighbourKeys_in_range 100 75 0 0).2 (by decide) (by decide)

end Theorems

section GridTheorems

variable {α : Type} [LinearOrderedField α] [FloorRing α]

/-- On a non-negative value `static_cast<int>` is the floor. -/
theorem toInt_of_nonneg (x : α) (h : 0 ≤ x) : toInt x = ⌊x⌋ := by
  simp [toInt, h]

/-- Values at most 1 apart have floors at most 1 apart. -/
theorem floor_sub_floor_le (u v : α) (h : u ≤ v + 1) : ⌊u⌋ ≤ ⌊v⌋ + 1 := by
  have h1 : (⌊u⌋ : α) ≤ u := Int.floor_le u
  have h2 : v < (⌊v⌋ : α) + 1 := Int.lt_floor_add_one v
  have h3 : (⌊u⌋ : α) < ((⌊v⌋ + 2 : Int) : α) := by
    push_cast
    linarith
  have h4 : ⌊u⌋ < ⌊v⌋ + 2 := Int.cast_lt.mp h3
  omega

/-- For in-range columns the bucket index determines the cell. -/
theorem key_inj (cx a b a' b' : Int) (ha : 0 ≤ a) (ha2 : a < cx) (hb : 0 ≤ a') (hb2 : a' < cx)
    (h : a + b * cx = a' + b' * cx) : a = a' ∧ b = b' := by
  have hcx : 0 < cx := by omega
  have e1 : (a + b * cx) % cx = a := by
    rw [Int.add_mul_emod_self, Int.emod_eq_of_lt ha ha2]
  have e2 : (a' + b' * cx) % cx = a' := by
    rw [Int.add_mul_emod_self, Int.emod_eq_of_lt hb hb2]
  have e3 : a = a' := by rw [← e1, ← e2, h]
  subst e3
  refine ⟨rfl, ?_⟩
  have : b * cx = b' * cx := by omega
  exact Int.eq_of_mul_eq_mul_right (ne_of_gt hcx) this

/-- When `generateGrid` succeeds, every bucket is its old content followed by the indices of
the objects with that bucket index. -/
theorem generateGridFrom_spec (g : Globals α) (objs : List (Particle α)) :
    ∀ (idx : Nat) (grid grid' : List (List Nat)), generateGridFrom g objs idx grid = some grid' →
      ∀ k : Nat, grid'[k]? = (grid[k]?).map (fun b => b ++ membersFrom g objs idx (k : Int)) := by
  induction objs with
  | nil =>
    intro idx grid grid' h k
    simp only [generateGridFrom, Option.some.injEq] at h
    subst h
    simp [membersFrom]
  | cons o rest ih =>
    intro idx grid grid' h k
    simp only [generateGridFrom] at h
    split_ifs at h with hk
    rw [ih _ _ _ h k, List.getElem?_modify]
    cases hg : grid[k]? with
    | none => simp
    | some b =>
      simp only [Option.map_some', Option.some.injEq, membersFrom]
      by_cases hkk : cellKey g o.position = (k : Int)
      · have : (cellKey g o.position).toNat = k := by omega
        simp [hkk, this]
      · have : ¬ (cellKey g o.position).toNat = k := by omega
        simp [hkk, this]

/-- When every object has a bucket index inside the grid, `generateGrid` succeeds. -/
theorem generateGridFrom_total (g : Globals α) (objs : List (Particle α)) :
    ∀ (idx : Nat) (grid : List (List Nat)),
      (∀ o ∈ objs, 0 ≤ cellKey g o.position ∧ cellKey g o.position < (grid.length : Int)) →
      ∃ grid', generateGridFrom g objs idx grid = some grid' := by
  induction objs with
  | nil => intro idx grid _; exact ⟨grid, rfl⟩
  | cons o rest ih =>
    intro idx grid h
    have ho := h o (List.mem_cons_self _ _)
    simp only [generateGridFrom, ho, and_self, if_true]
    apply ih
    intro o' ho'
    simpa using h o' (List.mem_cons_of_mem _ ho')

/-- The members of a bucket are the indices of the objects with that bucket index. -/
theorem mem_membersFrom (g : Globals α) (objs : List (Particle α)) :
    ∀ (idx : Nat) (key : Int) (c : Nat), c ∈ membersFrom g objs idx key ↔
      ∃ i, ∃ h : i < objs.length, c = idx + i ∧ cellKey g (objs[i]).position = key := by
  induction objs with
  | nil => intro idx key c; simp [membersFrom]
  | cons o rest ih =>
    intro idx key c
    simp only [membersFrom]
    constructor
    · intro h
      split_ifs at h with hk
      · rcases List.mem_cons.mp h with h | h
        · exact ⟨0, by simp, by simpa using h, by simpa using hk⟩
        · obtain ⟨i, hi, hc, hkey⟩ := (ih _ _ _).mp h
          exact ⟨i + 1, by simpa using hi, by omega, by simpa using hkey⟩
      · obtain ⟨i, hi, hc, hkey⟩ := (ih _ _ _).mp h
        exact ⟨i + 1, by simpa using hi, by omega, by simpa using hkey⟩
    · rintro ⟨i, hi, hc, hkey⟩
      cases i with
      | zero =>
        simp only [List.getElem_cons_zero] at hkey
        simp [hkey, hc]
      | succ i =>
        simp only [List.getElem_cons_succ] at hkey
        have hm : c ∈ membersFrom g rest (idx + 1) key :=
          (ih _ _ _).mpr ⟨i, by simpa using hi, by omega, hkey⟩
        split_ifs
        · exact List.mem_cons_of_mem _ hm
        · exact hm

/-- The members of a bucket are indices of objects of the list. -/
theorem membersFrom_ge (g : Globals α) (objs : List (Particle α)) (idx : Nat) (key : Int) (c : Nat)
    (h : c ∈ membersFrom g objs idx key) : idx ≤ c ∧ c < idx + objs.length := by
  obtain ⟨i, hi, hc, _⟩ := (mem_membersFrom g objs idx key c).mp h
  omega

/-- No index occurs twice among the members of a bucket. -/
theorem nodup_membersFrom (g : Globals α) (objs : List (Particle α)) :
    ∀ (idx : Nat) (key : Int), (membersFrom g objs idx key).Nodup := by
  induction objs with
  | nil => intro idx key; simp [membersFrom]
  | cons o rest ih =>
    intro idx key
    simp only [membersFrom]
    split_ifs
    · refine List.nodup_cons.mpr ⟨?_, ih _ _⟩
      intro hm
      have := (membersFrom_ge g rest (idx + 1) key idx hm).1
      omega
    · exact ih _ _

/-- A sum over the members of a bucket is a sum over all objects, restricted to the
objects with that bucket index. -/
theorem sum_membersFrom {M : Type} [AddCommMonoid M] (g : Globals α) (objs : List (Particle α)) :
    ∀ (idx : Nat) (key : Int) (F : Nat → M),
      ((membersFrom g objs idx key).map F).sum =
        ∑ q : Fin objs.length, if cellKey g (objs[q]).position = key then F (idx + q) else 0 := by
  induction objs with
  | nil => intro idx key F; simp [membersFrom]
  | cons o rest ih =>
    intro idx key F
    simp only [membersFrom, List.length_cons]
    rw [Fin.sum_univ_succ]
    have hrest : ∀ q : Fin rest.length,
        (if cellKey g ((o :: rest)[(q.succ : Fin (rest.length + 1))]).position = key
          then F (idx + (q.succ : Fin (rest.length + 1))) else 0) =
        (if cellKey g (rest[q]).position = key then F (idx + 1 + q) else 0) := by
      intro q
      have : idx + ((q : Nat) + 1) = idx + 1 + q := by omega
      simp [this]
    have h0 : (if cellKey g ((o :: rest)[(0 : Fin (rest.length + 1))]).position = key
          then F (idx + ((0 : Fin (rest.length + 1)) : Nat)) else 0) =
        (if cellKey g o.position = key then F idx else 0) := by
      simp
    rw [h0]
    simp only [hrest]
    by_cases hk : cellKey g o.position = key
    · simp [hk, ih]
    · simp [hk, ih]

/-- The function `generateGrid` keeps the number of buckets. -/
theorem generateGridFrom_length (g : Globals α) (objs : List (Particle α)) :
    ∀ (idx : Nat) (grid grid' : List (List Nat)), generateGridFrom g objs idx grid = some grid' →
      grid'.length = grid.length := by
  induction objs with
  | nil =>
    intro idx grid grid' h
    simp only [generateGridFrom, Option.some.injEq] at h
    rw [← h]
  | cons o rest ih =>
    intro idx grid grid' h
    simp only [generateGridFrom] at h
    split_ifs at h with hk
    rw [ih _ _ _ h, List.length_modify]

/-- When every object has an in-range bucket index, clearing the grid and running
`generateGrid` succeeds and bucket `k` holds the indices of the objects with bucket index `k`,
in increasing order. -/
theorem rebuildGrid_eq (g : Globals α) (objs : List (Particle α)) (grid0 : List (List Nat))
    (h : ∀ o ∈ objs, 0 ≤ cellKey g o.position ∧ cellKey g o.position < (grid0.length : Int)) :
    ∃ grid, rebuildGrid g objs grid0 = some grid ∧ grid.length = grid0.length ∧
      ∀ k : Nat, k < grid0.length → grid[k]? = some (membersFrom g objs 0 (k : Int)) := by
  have h' : ∀ o ∈ objs, 0 ≤ cellKey g o.position ∧
      cellKey g o.position < ((grid0.map (fun _ => ([] : List Nat))).length : Int) := by
    simpa using h
  obtain ⟨grid, hgrid⟩ := generateGridFrom_total g objs 0 _ h'
  refine ⟨grid, hgrid, ?_, ?_⟩
  · rw [generateGridFrom_length g objs 0 _ _ hgrid, List.length_map]
  · intro k hk
    rw [generateGridFrom_spec g objs 0 _ _ hgrid k]
    simp [hk]

/-- An object index occurs once in the bucket of its own bucket index and in no other. -/
theorem count_membersFrom (g : Globals α) (objs : List (Particle α)) (key : Int) (p : Nat)
    (hp : p < objs.length) :
    (membersFrom g objs 0 key).count p = if cellKey g (objs[p]).position = key then 1 else 0 := by
  split_ifs with hk
  · apply List.count_eq_one_of_mem (nodup_membersFrom g objs 0 key)
    exact (mem_membersFrom g objs 0 key p).mpr ⟨p, hp, by omega, hk⟩
  · apply List.count_eq_zero_of_not_mem
    intro hm
    obtain ⟨i, hi, hc, hkey⟩ := (mem_membersFrom g objs 0 key p).mp hm
    have : i = p := by omega
    subst this
    exact hk hkey

/-- A list of counts with a single 1 and zeros elsewhere sums to 1. -/
theorem sum_map_eq_one {β : Type} (f : β → Nat) :
    ∀ (L : List β) (K : Nat) (hK : K < L.length), f (L[K]) = 1 →
      (∀ (k : Nat) (hk : k < L.length), k ≠ K → f (L[k]) = 0) → (L.map f).sum = 1 := by
  intro L
  induction L with
  | nil => intro K hK; simp at hK
  | cons b L ih =>
    intro K hK h1 h0
    cases K with
    | zero =>
      have hz : (L.map f).sum = 0 := by
        apply List.sum_eq_zero
        intro x hx
        obtain ⟨y, hy, rfl⟩ := List.mem_map.mp hx
        obtain ⟨i, hi, rfl⟩ := List.getElem_of_mem hy
        have := h0 (i + 1) (by simpa using hi) (by omega)
        simpa using this
      simp only [List.getElem_cons_zero] at h1
      simp [h1, hz]
    | succ K =>
      have hb : f b = 0 := by
        have := h0 0 (by simp) (by omega)
        simpa using this
      have hrec : (L.map f).sum = 1 := by
        apply ih K (by simpa using hK)
        · simpa using h1
        · intro k hk hne
          have := h0 (k + 1) (by simpa using hk) (by omega)
          simpa using this
      simp [hb, hrec]

/-- In-grid floor coordinates are the cell coordinates that the code computes. -/
theorem gridXY_of_floor (g : Globals α) (pos : Vec3 α)
    (hx : 0 ≤ ⌊pos.x / (g.gridSize : α)⌋) (hy : 0 ≤ ⌊pos.y / (g.gridSize : α)⌋) :
    gridX g pos = ⌊pos.x / (g.gridSize : α)⌋ ∧ gridY g pos = ⌊pos.y / (g.gridSize : α)⌋ :=
  ⟨toInt_of_nonneg _ (Int.floor_nonneg.mp hx), toInt_of_nonneg _ (Int.floor_nonneg.mp hy)⟩

/-- C7: for every collection of bodies whose cell coordinates
`(floor(x / gridSize), floor(y / gridSize))` lie inside the grid, clearing every bucket and
running `generateGrid` succeeds, each body index appears exactly once over all buckets, and it
appears in the bucket with index `floor(x / gridSize) + floor(y / gridSize) * cellsX` and in
no other. -/
theorem rebuildGrid_complete (g : Globals α) (objs : List (Particle α))
    (grid0 : List (List Nat)) (_hgs : g.gridSize ≠ 0)
    (hlen : (grid0.length : Int) = g.cellsX * g.cellsY)
    (hin : ∀ o ∈ objs,
      0 ≤ ⌊o.position.x / (g.gridSize : α)⌋ ∧ ⌊o.position.x / (g.gridSize : α)⌋ < g.cellsX ∧
      0 ≤ ⌊o.position.y / (g.gridSize : α)⌋ ∧ ⌊o.position.y / (g.gridSize : α)⌋ < g.cellsY) :
    ∃ grid, rebuildGrid g objs grid0 = some grid ∧ grid.length = grid0.length ∧
      ∀ (p : Nat) (hp : p < objs.length),
        (grid.map (fun bucket => bucket.count p)).sum = 1 ∧
        ∀ (k : Nat) (hk : k < grid.length),
          (grid[k]).count p =
            if (k : Int) = ⌊(objs[p]).position.x / (g.gridSize : α)⌋ +
              ⌊(objs[p]).position.y / (g.gridSize : α)⌋ * g.cellsX then 1 else 0 := by
  have hkey : ∀ o ∈ objs, cellKey g o.position =
      ⌊o.position.x / (g.gridSize : α)⌋ + ⌊o.position.y / (g.gridSize : α)⌋ * g.cellsX := by
    intro o ho
    obtain ⟨h1, _, h3, _⟩ := hin o ho
    obtain ⟨e1, e2⟩ := gridXY_of_floor g o.position h1 h3
    rw [cellKey, e1, e2]
  have hrange : ∀ o ∈ objs, 0 ≤ cellKey g o.position ∧
      cellKey g o.position < (grid0.length : Int) := by
    intro o ho
    obtain ⟨h1, h2, h3, h4⟩ := hin o ho
    rw [hkey o ho, hlen]
    exact key_range _ _ _ _ h1 h2 h3 h4
  obtain ⟨grid, hgrid, hl, hb⟩ := rebuildGrid_eq g objs grid0 hrange
  refine ⟨grid, hgrid, hl, ?_⟩
  intro p hp
  have hmem : objs[p] ∈ objs := List.getElem_mem _
  have hcount : ∀ (k : Nat) (hk : k < grid.length),
      (grid[k]).count p =
        if (k : Int) = ⌊(objs[p]).position.x / (g.gridSize : α)⌋ +
          ⌊(objs[p]).position.y / (g.gridSize : α)⌋ * g.cellsX then 1 else 0 := by
    intro k hk
    have hk0 : k < grid0.length := by omega
    have e : grid[k] = membersFrom g objs 0 (k : Int) := by
      have := hb k hk0
      rw [List.getElem?_eq_getElem hk] at this
      exact Option.some.inj this
    rw [e, count_membersFrom g objs _ p hp, hkey _ hmem]
    by_cases hc : (k : Int) = ⌊(objs[p]).position.x / (g.gridSize : α)⌋ +
          ⌊(objs[p]).position.y / (g.gridSize : α)⌋ * g.cellsX
    · simp [hc]
    · have : ¬ (⌊(objs[p]).position.x / (g.gridSize : α)⌋ +
          ⌊(objs[p]).position.y / (g.gridSize : α)⌋ * g.cellsX = (k : Int)) := fun h => hc h.symm
      simp [hc, this]
  refine ⟨?_, hcount⟩
  obtain ⟨hr0, hr1⟩ := hrange _ hmem
  have hK : (cellKey g (objs[p]).position).toNat < grid.length := by omega
  apply sum_map_eq_one (fun bucket => bucket.count p) grid _ hK
  · show (grid[(cellKey g (objs[p]).position).toNat]).count p = 1
    rw [hcount _ hK, if_pos]
    rw [← hkey _ hmem]
    omega
  · intro k hk hne
    show (grid[k]).count p = 0
    rw [hcount k hk, if_neg]
    rw [← hkey _ hmem]
    omega

/-- The offsets of the 3x3 loop are the pairs with both components in `{-1, 0, 1}`. -/
theorem mem_neighbourOffsets (i j : Int) :
    (i, j) ∈ neighbourOffsets ↔ (-1 ≤ i ∧ i ≤ 1) ∧ (-1 ≤ j ∧ j ≤ 1) := by
  simp only [neighbourOffsets, List.mem_cons, Prod.mk.injEq, List.mem_singleton, List.not_mem_nil,
    or_false]
  omega

/-- When `generateGrid` succeeds, every object had a bucket index inside the grid. -/
theorem generateGridFrom_range (g : Globals α) (objs : List (Particle α)) :
    ∀ (idx : Nat) (grid grid' : List (List Nat)), generateGridFrom g objs idx grid = some grid' →
      ∀ o ∈ objs, 0 ≤ cellKey g o.position ∧ cellKey g o.position < (grid.length : Int) := by
  induction objs with
  | nil => intro idx grid grid' _ o ho; simp at ho
  | cons o rest ih =>
    intro idx grid grid' h o' ho'
    simp only [generateGridFrom] at h
    split_ifs at h with hk
    rcases List.mem_cons.mp ho' with rfl | hm
    · exact hk
    · have := ih _ _ _ h o' hm
      simpa using this

/-- Positions at most one cell size apart have cell columns at most one apart. -/
theorem floor_div_close (s a b : α) (hs : 0 < s) (h : (a - b) * (a - b) ≤ s * s) :
    |⌊a / s⌋ - ⌊b / s⌋| ≤ 1 := by
  have h1 : a - b ≤ s := by nlinarith
  have h2 : b - a ≤ s := by nlinarith
  have e1 : a / s ≤ b / s + 1 := by
    rw [div_add_one (ne_of_gt hs)]
    exact div_le_div_of_nonneg_right (by linarith) (le_of_lt hs)
  have e2 : b / s ≤ a / s + 1 := by
    rw [div_add_one (ne_of_gt hs)]
    exact div_le_div_of_nonneg_right (by linarith) (le_of_lt hs)
  have f1 := floor_sub_floor_le _ _ e1
  have f2 := floor_sub_floor_le _ _ e2
  rw [abs_le]
  constructor <;> omega

/-- C2: with cell size `gridSize = 2 * radius` (as for radius 4, `gridSize` 8), two bodies
with non-negative coordinates whose squared distance is at most `(2 * radius)^2` have cell
coordinates that differ by at most 1 on each axis; and when both cells lie inside the grid
(and the bucket index of every body is an index of the grid vector, so that `generateGrid`
indexes in range), `generateGrid` succeeds and files the second body in one of the buckets
that the 3x3 loop of the solver visits for the first. -/
theorem broadphase_sound (g : Globals α) (objs : List (Particle α)) (grid0 : List (List Nat))
    (p q : Nat) (hp : p < objs.length) (hq : q < objs.length)
    (hr : 0 < g.radius) (hgs : (g.gridSize : α) = 2 * g.radius)
    (hAx : 0 ≤ (objs[p]).position.x) (hAy : 0 ≤ (objs[p]).position.y)
    (hBx : 0 ≤ (objs[q]).position.x) (hBy : 0 ≤ (objs[q]).position.y)
    (hd : Vec3.dot (Vec3.sub (objs[p]).position (objs[q]).position)
        (Vec3.sub (objs[p]).position (objs[q]).position) ≤ (2 * g.radius) * (2 * g.radius)) :
    |gridX g (objs[p]).position - gridX g (objs[q]).position| ≤ 1 ∧
    |gridY g (objs[p]).position - gridY g (objs[q]).position| ≤ 1 ∧
    ((∀ o ∈ objs, 0 ≤ cellKey g o.position ∧ cellKey g o.position < (grid0.length : Int)) →
      (0 ≤ gridX g (objs[p]).position ∧ gridX g (objs[p]).position < g.cellsX ∧
       0 ≤ gridY g (objs[p]).position ∧ gridY g (objs[p]).position < g.cellsY) →
      (0 ≤ gridX g (objs[q]).position ∧ gridX g (objs[q]).position < g.cellsX ∧
       0 ≤ gridY g (objs[q]).position ∧ gridY g (objs[q]).position < g.cellsY) →
      ∃ grid, generateGrid g objs grid0 = some grid ∧
        ∃ key ∈ neighbourKeys g.cellsX g.cellsY (gridX g (objs[p]).position)
            (gridY g (objs[p]).position),
          ∃ bucket, grid[key.toNat]? = some bucket ∧ q ∈ bucket) := by
  have hs : (0 : α) < (g.gridSize : α) := by rw [hgs]; linarith
  have hd' : Vec3.dot (Vec3.sub (objs[p]).position (objs[q]).position)
        (Vec3.sub (objs[p]).position (objs[q]).position)
        ≤ (g.gridSize : α) * (g.gridSize : α) := by rw [hgs]; exact hd
  simp only [Vec3.dot, Vec3.sub] at hd'
  have hx : ((objs[p]).position.x - (objs[q]).position.x) *
      ((objs[p]).position.x - (objs[q]).position.x) ≤ (g.gridSize : α) * (g.gridSize : α) := by
    nlinarith [mul_self_nonneg ((objs[p]).position.y - (objs[q]).position.y),
      mul_self_nonneg ((objs[p]).position.z - (objs[q]).position.z)]
  have hy : ((objs[p]).position.y - (objs[q]).position.y) *
      ((objs[p]).position.y - (objs[q]).position.y) ≤ (g.gridSize : α) * (g.gridSize : α) := by
    nlinarith [mul_self_nonneg ((objs[p]).position.x - (objs[q]).position.x),
      mul_self_nonneg ((objs[p]).position.z - (objs[q]).position.z)]
  have cx : |gridX g (objs[p]).position - gridX g (objs[q]).position| ≤ 1 := by
    rw [gridX, gridX, toInt_of_nonneg _ (div_nonneg hAx (le_of_lt hs)),
      toInt_of_nonneg _ (div_nonneg hBx (le_of_lt hs))]
    exact floor_div_close _ _ _ hs hx
  have cy : |gridY g (objs[p]).position - gridY g (objs[q]).position| ≤ 1 := by
    rw [gridY, gridY, toInt_of_nonneg _ (div_nonneg hAy (le_of_lt hs)),
      toInt_of_nonneg _ (div_nonneg hBy (le_of_lt hs))]
    exact floor_div_close _ _ _ hs hy
  refine ⟨cx, cy, ?_⟩
  intro hkeys hA hB
  obtain ⟨grid, hgrid⟩ := generateGridFrom_total g objs 0 grid0 hkeys
  rw [abs_le] at cx cy
  refine ⟨grid, hgrid, cellKey g (objs[q]).position, ?_, ?_⟩
  · simp only [neighbourKeys, List.mem_map, List.mem_filter, decide_eq_true_eq]
    refine ⟨(gridX g (objs[q]).position - gridX g (objs[p]).position,
      gridY g (objs[q]).position - gridY g (objs[p]).position), ⟨?_, ?_⟩, ?_⟩
    · rw [mem_neighbourOffsets]
      omega
    · dsimp only
      omega
    · simp only [cellKey]
      ring
  · have hrange := generateGridFrom_range g objs 0 grid0 grid hgrid _ (List.getElem_mem hq)
    have hspec := generateGridFrom_spec g objs 0 grid0 grid hgrid
      (cellKey g (objs[q]).position).toNat
    have hlt : (cellKey g (objs[q]).position).toNat < grid0.length := by omega
    rw [List.getElem?_eq_getElem hlt] at hspec
    refine ⟨_, hspec, ?_⟩
    apply List.mem_append_right
    rw [mem_membersFrom]
    exact ⟨q, hq, by omega, by omega⟩

/-- In a domain whose width is a whole number of cells (`W = cellsX * gridSize`, as for
800 x 600 with `gridSize` 8), a position with `radius ≤ x ≤ W - radius` has an in-grid
cell column. -/
theorem gridX_in_grid_of_contained (g : Globals α) (pos : Vec3 α)
    (hr : 0 < g.radius) (hgs : (g.gridSize : α) = 2 * g.radius)
    (hW : g.screenSizeX = g.cellsX * g.gridSize)
    (hx1 : g.radius ≤ pos.x) (hx2 : pos.x ≤ (g.screenSizeX : α) - g.radius) :
    0 ≤ gridX g pos ∧ gridX g pos < g.cellsX := by
  have hs : (0 : α) < (g.gridSize : α) := by rw [hgs]; linarith
  have hx0 : 0 ≤ pos.x / (g.gridSize : α) := div_nonneg (by linarith) (le_of_lt hs)
  rw [gridX, toInt_of_nonneg _ hx0]
  refine ⟨Int.floor_nonneg.mpr hx0, ?_⟩
  rw [Int.floor_lt, div_lt_iff₀ hs]
  have hWc : (g.screenSizeX : α) = (g.cellsX : α) * (g.gridSize : α) := by
    rw [hW]; push_cast; ring
  rw [hWc] at hx2
  linarith

/-- The initial globals, evaluated: an 800 x 600 domain with 100 x 75 cells of size 8. -/
theorem initialGlobals_eq :
    (initialGlobals : Globals α) =
      { screenSizeX := 800, screenSizeY := 600, cellsX := 100, cellsY := 75, radius := 4,
        gridSize := 8, restitution := 0.1 } := by
  have h8 : toInt ((2 : α) * 4) = 8 := by
    norm_num [toInt]
  simp only [initialGlobals, h8]
  have e1 : Int.tdiv 800 8 = 100 := by decide
  have e2 : Int.tdiv 600 8 = 75 := by decide
  rw [e1, e2]

/-- The globals after the resize to 804 x 600, evaluated: still 100 x 75 cells. -/
theorem resizedGlobals_eq :
    (resizedGlobals : Globals α) =
      { screenSizeX := 804, screenSizeY := 600, cellsX := 100, cellsY := 75, radius := 4,
        gridSize := 8, restitution := 0.1 } := by
  simp only [resizedGlobals, framebuffer_size_callback, initialGlobals_eq]
  have e1 : Int.tdiv 804 8 = 100 := by decide
  have e2 : Int.tdiv 600 8 = 75 := by decide
  rw [e1, e2]

end GridTheorems

/-- Witness of C2 on the end-to-end fixture: the bodies at `(100, 100)` and `(105, 100)`
lie in the cells `(12, 12)` and `(13, 12)` of the 100 x 75 grid, `generateGrid` succeeds on
the 7500 buckets, and the second body is in a bucket that the 3x3 loop visits from the cell
`(12, 12)`. -/
theorem broadphase_sound_witness :
    |gridX (initialGlobals : Globals ℚ) (headOnA : Particle ℚ).position -
      gridX (initialGlobals : Globals ℚ) (headOnB : Particle ℚ).position| ≤ 1 ∧
    |gridY (initialGlobals : Globals ℚ) (headOnA : Particle ℚ).position -
      gridY (initialGlobals : Globals ℚ) (headOnB : Particle ℚ).position| ≤ 1 ∧
    ∃ grid, generateGrid (initialGlobals : Globals ℚ) [headOnA, headOnB]
        (List.replicate 7500 []) = some grid ∧
      ∃ key ∈ neighbourKeys 100 75 12 12, ∃ bucket, grid[key.toNat]? = some bucket ∧
        1 ∈ bucket := by
  have hxA : gridX (initialGlobals : Globals ℚ) (headOnA : Particle ℚ).position = 12 := by
    rw [initialGlobals_eq]; norm_num [gridX, toInt, headOnA]
  have hyA : gridY (initialGlobals : Globals ℚ) (headOnA : Particle ℚ).position = 12 := by
    rw [initialGlobals_eq]; norm_num [gridY, toInt, headOnA]
  have hxB : gridX (initialGlobals : Globals ℚ) (headOnB : Particle ℚ).position = 13 := by
    rw [initialGlobals_eq]; norm_num [gridX, toInt, headOnB]
  have hyB : gridY (initialGlobals : Globals ℚ) (headOnB : Particle ℚ).position = 12 := by
    rw [initialGlobals_eq]; norm_num [gridY, toInt, headOnB]
  have hcx : (initialGlobals : Globals ℚ).cellsX = 100 := by rw [initialGlobals_eq]
  have hcy : (initialGlobals : Globals ℚ).cellsY = 75 := by rw [initialGlobals_eq]
  have hkeys : ∀ o ∈ [(headOnA : Particle ℚ), headOnB],
      0 ≤ cellKey (initialGlobals : Globals ℚ) o.position ∧
      cellKey (initialGlobals : Globals ℚ) o.position <
        (((List.replicate 7500 ([] : List Nat)).length : Nat) : Int) := by
    intro o ho
    simp only [List.mem_cons, List.mem_singleton, List.not_mem_nil, or_false] at ho
    rw [List.length_replicate]
    rcases ho with rfl | rfl
    · rw [cellKey, hxA, hyA, hcx]; decide
    · rw [cellKey, hxB, hyB, hcx]; decide
  have h := broadphase_sound (initialGlobals : Globals ℚ) [headOnA, headOnB]
    (List.replicate 7500 []) 0 1 (by decide) (by decide)
    (by rw [initialGlobals_eq]; norm_num) (by rw [initialGlobals_eq]; norm_num)
    (by norm_num [headOnA]) (by norm_num [headOnA])
    (by norm_num [headOnB]) (by norm_num [headOnB])
    (by rw [initialGlobals_eq]; norm_num [headOnA, headOnB, Vec3.dot, Vec3.sub])
  simp only [List.getElem_cons_zero, List.getElem_cons_succ, hxA, hyA, hxB, hyB, hcx, hcy] at h
  rw [hxA, hxB, hyA, hyB]
  exact ⟨h.1, h.2.1, h.2.2 hkeys (by decide) (by decide)⟩

/-- C3 at a failing input: after a resize to 804 x 600 the grid has 100 x 75 cells of size
`8 = 2 * radius`; a body that `boundaryCollisions` has put at `(800, 596)` satisfies
boundary containment, but its cell column is `100 = cellsX`, its bucket index is
`7500 = cellsX * cellsY`, and `generateGrid` indexes the grid out of range. -/
theorem generateGrid_out_of_range :
    (resizedGlobals : Globals ℚ).cellsX = 100 ∧ (resizedGlobals : Globals ℚ).cellsY = 75 ∧
    (((resizedGlobals : Globals ℚ).gridSize : Int) : ℚ) = 2 * (resizedGlobals : Globals ℚ).radius ∧
    (cornerBody : Particle ℚ).position = ⟨800, 596, 0⟩ ∧
    ((resizedGlobals : Globals ℚ).radius ≤ (cornerBody : Particle ℚ).position.x ∧
      (cornerBody : Particle ℚ).position.x ≤
        (((resizedGlobals : Globals ℚ).screenSizeX : Int) : ℚ) - (resizedGlobals : Globals ℚ).radius ∧
      (resizedGlobals : Globals ℚ).radius ≤ (cornerBody : Particle ℚ).position.y ∧
      (cornerBody : Particle ℚ).position.y ≤
        (((resizedGlobals : Globals ℚ).screenSizeY : Int) : ℚ) - (resizedGlobals : Globals ℚ).radius) ∧
    gridX (resizedGlobals : Globals ℚ) (cornerBody : Particle ℚ).position = 100 ∧
    gridY (resizedGlobals : Globals ℚ) (cornerBody : Particle ℚ).position = 74 ∧
    cellKey (resizedGlobals : Globals ℚ) (cornerBody : Particle ℚ).position = 7500 ∧
    rebuildGrid (resizedGlobals : Globals ℚ) [cornerBody] (List.replicate 7500 []) = none := by
  have hb : (cornerBody : Particle ℚ) =
      { position := ⟨800, 596, 0⟩, velocity := ⟨100 * -0.1, 100 * -0.1, 0⟩,
        acceleration := ⟨0, -980, 0⟩, radius := 4 } := by
    rw [cornerBody, resizedGlobals_eq]
    norm_num [boundaryCollisions]
  have hx : gridX (resizedGlobals : Globals ℚ) (cornerBody : Particle ℚ).position = 100 := by
    rw [hb, resizedGlobals_eq]; norm_num [gridX, toInt]
  have hy : gridY (resizedGlobals : Globals ℚ) (cornerBody : Particle ℚ).position = 74 := by
    rw [hb, resizedGlobals_eq]; norm_num [gridY, toInt]
  have hk : cellKey (resizedGlobals : Globals ℚ) (cornerBody : Particle ℚ).position = 7500 := by
    rw [cellKey, hx, hy, resizedGlobals_eq]; norm_num
  refine ⟨by rw [resizedGlobals_eq], by rw [resizedGlobals_eq],
    by rw [resizedGlobals_eq]; norm_num, by rw [hb],
    by rw [hb, resizedGlobals_eq]; norm_num, hx, hy, hk, ?_⟩
  rw [rebuildGrid, generateGrid, generateGridFrom]
  simp only [hk, List.length_map, List.length_replicate]
  norm_num

namespace Vec3
variable {α : Type}

/-- Vectors with equal components are equal. -/
theorem ext' {a b : Vec3 α} (hx : a.x = b.x) (hy : a.y = b.y) (hz : a.z = b.z) : a = b := by
  cases a; cases b; simp_all

/-- The operator `+` on vectors is `Vec3.add`. -/
theorem add_def [Add α] (a b : Vec3 α) : Vec3.add a b = a + b := rfl

/-- The operator `-` on vectors is `Vec3.sub`. -/
theorem sub_def [Sub α] (a b : Vec3 α) : Vec3.sub a b = a - b := rfl

/-- The vector `0` is `Vec3.zero`. -/
theorem zero_def [Zero α] : (Vec3.zero : Vec3 α) = 0 := rfl

/-- The `x` component of a sum. -/
theorem add_x [Add α] (a b : Vec3 α) : (a + b).x = a.x + b.x := rfl

/-- The `y` component of a sum. -/
theorem add_y [Add α] (a b : Vec3 α) : (a + b).y = a.y + b.y := rfl

/-- The `z` component of a sum. -/
theorem add_z [Add α] (a b : Vec3 α) : (a + b).z = a.z + b.z := rfl

/-- The `x` component of a difference. -/
theorem sub_x [Sub α] (a b : Vec3 α) : (a - b).x = a.x - b.x := rfl

/-- The `y` component of a difference. -/
theorem sub_y [Sub α] (a b : Vec3 α) : (a - b).y = a.y - b.y := rfl

/-- The `z` component of a difference. -/
theorem sub_z [Sub α] (a b : Vec3 α) : (a - b).z = a.z - b.z := rfl

/-- The `x` component of a negation. -/
theorem neg_x [Neg α] (a : Vec3 α) : (-a).x = -a.x := rfl

/-- The `y` component of a negation. -/
theorem neg_y [Neg α] (a : Vec3 α) : (-a).y = -a.y := rfl

/-- The `z` component of a negation. -/
theorem neg_z [Neg α] (a : Vec3 α) : (-a).z = -a.z := rfl

/-- The `x` component of zero. -/
theorem zero_x [Zero α] : (0 : Vec3 α).x = 0 := rfl

/-- The `y` component of zero. -/
theorem zero_y [Zero α] : (0 : Vec3 α).y = 0 := rfl

/-- The `z` component of zero. -/
theorem zero_z [Zero α] : (0 : Vec3 α).z = 0 := rfl

end Vec3

section SolverTheorems

variable {α : Type} [LinearOrderedField α] [FloorRing α]

omit [FloorRing α] in
/-- A vector that equals its own negation is zero. -/
theorem Vec3.eq_zero_of_eq_neg (v : Vec3 α) (h : v = -v) : v = 0 := by
  have hx : v.x = -v.x := by
    have := congrArg Vec3.x h
    rwa [Vec3.neg_x] at this
  have hy : v.y = -v.y := by
    have := congrArg Vec3.y h
    rwa [Vec3.neg_y] at this
  have hz : v.z = -v.z := by
    have := congrArg Vec3.z h
    rwa [Vec3.neg_z] at this
  apply Vec3.ext'
  · rw [Vec3.zero_x]; linarith
  · rw [Vec3.zero_y]; linarith
  · rw [Vec3.zero_z]; linarith

omit [FloorRing α] in
/-- The contribution of a collider is added to whatever the buffer entry holds. -/
theorem collide_add (isq : α → α) (g : Globals α) (A B : Particle α) (acc : Vec3 α) :
    collide isq g A B acc = acc + collide isq g A B 0 := by
  unfold collide
  dsimp only
  split_ifs
  · rw [Vec3.add_def, Vec3.add_def, zero_add]
  · rw [add_zero]
  · rw [add_zero]

omit [FloorRing α] in
/-- The impulse accumulated for `A` from `B` is the exact negative of the impulse
accumulated for `B` from `A`. -/
theorem collide_antisymm (isq : α → α) (g : Globals α) (A B : Particle α) :
    collide isq g A B 0 = -collide isq g B A 0 := by
  have hd : Vec3.dot (Vec3.sub B.position A.position) (Vec3.sub B.position A.position) =
      Vec3.dot (Vec3.sub A.position B.position) (Vec3.sub A.position B.position) := by
    simp only [Vec3.dot, Vec3.sub]; ring
  unfold collide
  dsimp only
  rw [hd]
  generalize isq (Vec3.dot (Vec3.sub A.position B.position) (Vec3.sub A.position B.position)) = s
  have hv : Vec3.dot (Vec3.sub B.velocity A.velocity)
        (Vec3.mulScalar (Vec3.sub B.position A.position) s) =
      Vec3.dot (Vec3.sub A.velocity B.velocity)
        (Vec3.mulScalar (Vec3.sub A.position B.position) s) := by
    simp only [Vec3.dot, Vec3.sub, Vec3.mulScalar]; ring
  rw [hv]
  split_ifs
  · apply Vec3.ext'
    · simp only [Vec3.add_def, Vec3.add_x, Vec3.neg_x, Vec3.zero_x, Vec3.scalarMul,
        Vec3.mulScalar, Vec3.sub]
      ring
    · simp only [Vec3.add_def, Vec3.add_y, Vec3.neg_y, Vec3.zero_y, Vec3.scalarMul,
        Vec3.mulScalar, Vec3.sub]
      ring
    · simp only [Vec3.add_def, Vec3.add_z, Vec3.neg_z, Vec3.zero_z, Vec3.scalarMul,
        Vec3.mulScalar, Vec3.sub]
      ring
  · rw [neg_zero]
  · rw [neg_zero]

omit [FloorRing α] in
/-- The loop over one bucket adds the contribution of each of its colliders. -/
theorem bucketLoop_eq (isq : α → α) (g : Globals α) (objs : List (Particle α)) (p : Nat)
    (A : Particle α) :
    ∀ (bucket : List Nat) (acc : Vec3 α), (∀ c ∈ bucket, c < objs.length) →
      bucketLoop isq g objs p A bucket acc =
        some (acc + (bucket.map (contributionAt isq g objs p A)).sum) := by
  intro bucket
  induction bucket with
  | nil => intro acc _; simp [bucketLoop]
  | cons c rest ih =>
    intro acc h
    have hc : c < objs.length := h c (List.mem_cons_self _ _)
    have hrest : ∀ c' ∈ rest, c' < objs.length := fun c' hc' => h c' (List.mem_cons_of_mem _ hc')
    simp only [bucketLoop, List.map_cons, List.sum_cons]
    by_cases hpc : p = c
    · subst hpc
      simp only [ne_eq, not_true_eq_false, if_false]
      rw [ih acc hrest]
      simp [contributionAt]
    · simp only [ne_eq, hpc, not_false_eq_true, if_true, List.getElem?_eq_getElem hc]
      rw [ih _ hrest, collide_add]
      simp [contributionAt, hpc, List.getElem?_eq_getElem hc, add_assoc]

omit [FloorRing α] in
/-- The loop over the visited buckets adds the contributions of all their colliders. -/
theorem neighbourLoop_eq (isq : α → α) (g : Globals α) (objs : List (Particle α))
    (grid : List (List Nat)) (p : Nat) (A : Particle α) (bucketOf : Int → List Nat) :
    ∀ (keys : List Int) (acc : Vec3 α),
      (∀ key ∈ keys, grid[key.toNat]? = some (bucketOf key) ∧
        ∀ c ∈ bucketOf key, c < objs.length) →
      neighbourLoop isq g objs grid p A keys acc =
        some (acc + (keys.map (fun key =>
          ((bucketOf key).map (contributionAt isq g objs p A)).sum)).sum) := by
  intro keys
  induction keys with
  | nil => intro acc _; simp [neighbourLoop]
  | cons key rest ih =>
    intro acc h
    obtain ⟨hk1, hk2⟩ := h key (List.mem_cons_self _ _)
    have hrest : ∀ key' ∈ rest, grid[key'.toNat]? = some (bucketOf key') ∧
        ∀ c ∈ bucketOf key', c < objs.length :=
      fun key' hk' => h key' (List.mem_cons_of_mem _ hk')
    simp only [neighbourLoop, hk1, bucketLoop_eq isq g objs p A _ _ hk2, ih _ hrest,
      List.map_cons, List.sum_cons, add_assoc]

/-- Over a list without duplicates, the sum of an indicator of `d` picks `d` once. -/
theorem sum_map_ite_eq_of_nodup {β M : Type} [DecidableEq β] [AddCommMonoid M] (d : β) (v : M) :
    ∀ (l : List β), l.Nodup → (l.map (fun x => if x = d then v else 0)).sum =
      if d ∈ l then v else 0 := by
  intro l
  induction l with
  | nil => intro _; simp
  | cons a l ih =>
    intro hl
    obtain ⟨ha, hl'⟩ := List.nodup_cons.mp hl
    simp only [List.map_cons, List.sum_cons, ih hl', List.mem_cons]
    by_cases had : a = d
    · subst had
      simp [ha]
    · have : ¬ d = a := fun h => had h.symm
      simp [had, this]

/-- A list sum of finite sums is the finite sum of the list sums. -/
theorem list_sum_finset_sum {β M : Type} [AddCommMonoid M] {n : Nat} (f : β → Fin n → M) :
    ∀ (l : List β), (l.map (fun b => ∑ q : Fin n, f b q)).sum =
      ∑ q : Fin n, (l.map (fun b => f b q)).sum := by
  intro l
  induction l with
  | nil => simp
  | cons b l ih => simp [ih, Finset.sum_add_distrib]

/-- Among the bucket indices that the 3x3 loop visits from the cell `(gx, gy)`, the bucket
index of an in-grid cell `(qx, qy)` occurs once when the two cells are equal or adjacent,
and not at all otherwise. -/
theorem neighbourKeys_sum {M : Type} [AddCommMonoid M] (cx cy gx gy qx qy : Int) (v : M)
    (hqx : 0 ≤ qx ∧ qx < cx) (hqy : 0 ≤ qy ∧ qy < cy) :
    ((neighbourKeys cx cy gx gy).map (fun key => if qx + qy * cx = key then v else 0)).sum =
      if |qx - gx| ≤ 1 ∧ |qy - gy| ≤ 1 then v else 0 := by
  have hnd : (neighbourOffsets.filter (fun ij =>
      decide (gx + ij.1 ≥ 0 ∧ gx + ij.1 < cx ∧ gy + ij.2 ≥ 0 ∧ gy + ij.2 < cy))).Nodup :=
    List.Nodup.filter _ (by decide)
  have hcongr : ∀ ij ∈ neighbourOffsets.filter (fun ij =>
      decide (gx + ij.1 ≥ 0 ∧ gx + ij.1 < cx ∧ gy + ij.2 ≥ 0 ∧ gy + ij.2 < cy)),
      ((fun key => if qx + qy * cx = key then v else 0) ∘
        (fun ij : Int × Int => (gx + ij.1) + (gy + ij.2) * cx)) ij =
      (fun ij : Int × Int => if ij = (qx - gx, qy - gy) then v else 0) ij := by
    intro ij hij
    simp only [List.mem_filter, decide_eq_true_eq] at hij
    obtain ⟨_, h1, h2, h3, h4⟩ := hij
    have hiff : (qx + qy * cx = (gx + ij.1) + (gy + ij.2) * cx) ↔ ij = (qx - gx, qy - gy) := by
      constructor
      · intro h
        obtain ⟨e1, e2⟩ := key_inj cx qx qy (gx + ij.1) (gy + ij.2) hqx.1 hqx.2 h1 h2 h
        apply Prod.ext
        · show ij.1 = qx - gx
          omega
        · show ij.2 = qy - gy
          omega
      · intro h
        rw [h]
        ring
    simp only [Function.comp, hiff]
  rw [neighbourKeys, List.map_map, List.map_congr_left hcongr,
    sum_map_ite_eq_of_nodup _ _ _ hnd]
  have hmem : ((qx - gx, qy - gy) ∈ neighbourOffsets.filter (fun ij =>
      decide (gx + ij.1 ≥ 0 ∧ gx + ij.1 < cx ∧ gy + ij.2 ≥ 0 ∧ gy + ij.2 < cy))) ↔
      (|qx - gx| ≤ 1 ∧ |qy - gy| ≤ 1) := by
    rw [List.mem_filter, mem_neighbourOffsets, abs_le, abs_le]
    simp only [decide_eq_true_eq]
    constructor
    · intro h; exact h.1
    · intro h
      refine ⟨h, ?_⟩
      dsimp only
      omega
  simp only [hmem]

/-- On a grid rebuilt from in-grid positions, the loop of line 363 leaves in the impulse
buffer entry of `A` one contribution for each object in the 3x3 block of cells around `A`. -/
theorem impulseOf_eq (isq : α → α) (g : Globals α) (objs : List (Particle α))
    (grid : List (List Nat)) (p : Nat) (A : Particle α)
    (hlen : (grid.length : Int) = g.cellsX * g.cellsY)
    (hgrid : ∀ k : Nat, k < grid.length → grid[k]? = some (membersFrom g objs 0 (k : Int)))
    (hin : ∀ o ∈ objs, (0 ≤ gridX g o.position ∧ gridX g o.position < g.cellsX) ∧
      (0 ≤ gridY g o.position ∧ gridY g o.position < g.cellsY)) :
    impulseOf isq g objs grid p A = some (neighbourSum isq g objs p A) := by
  have hkeys : ∀ key ∈ neighbourKeys g.cellsX g.cellsY (gridX g A.position) (gridY g A.position),
      grid[key.toNat]? = some (membersFrom g objs 0 key) ∧
        ∀ c ∈ membersFrom g objs 0 key, c < objs.length := by
    intro key hkey
    obtain ⟨h0, h1⟩ := neighbourKeys_bounds g.cellsX g.cellsY (gridX g A.position)
      (gridY g A.position) key hkey
    constructor
    · have hlt : key.toNat < grid.length := by omega
      have := hgrid key.toNat hlt
      rwa [Int.toNat_of_nonneg h0] at this
    · intro c hc
      have := membersFrom_ge g objs 0 key c hc
      omega
  rw [impulseOf, neighbourLoop_eq isq g objs grid p A (fun key => membersFrom g objs 0 key) _ _
    hkeys, Vec3.zero_def, zero_add, neighbourSum]
  congr 1
  have hsum : ∀ key : Int, ((membersFrom g objs 0 key).map (contributionAt isq g objs p A)).sum =
      ∑ q : Fin objs.length, if cellKey g (objs[q]).position = key
        then contributionAt isq g objs p A q else 0 := by
    intro key
    rw [sum_membersFrom]
    simp
  simp only [hsum]
  rw [list_sum_finset_sum]
  apply Finset.sum_congr rfl
  intro q _
  have hq := hin _ (List.getElem_mem q.isLt)
  exact neighbourKeys_sum g.cellsX g.cellsY (gridX g A.position) (gridY g A.position)
    (gridX g (objs[q]).position) (gridY g (objs[q]).position) _ hq.1 hq.2

/-- On a grid rebuilt from in-grid positions the loop of lines 363-403 succeeds and fills
the impulse buffer with the closed forms. -/
theorem impulsesFrom_eq (isq : α → α) (g : Globals α) (objs : List (Particle α))
    (grid : List (List Nat))
    (hlen : (grid.length : Int) = g.cellsX * g.cellsY)
    (hgrid : ∀ k : Nat, k < grid.length → grid[k]? = some (membersFrom g objs 0 (k : Int)))
    (hin : ∀ o ∈ objs, (0 ≤ gridX g o.position ∧ gridX g o.position < g.cellsX) ∧
      (0 ≤ gridY g o.position ∧ gridY g o.position < g.cellsY)) :
    ∀ (rest : List (Particle α)) (idx : Nat),
      ∃ imps, impulsesFrom isq g objs grid rest idx = some imps ∧
        imps.length = rest.length ∧
        (∀ (i : Nat) (h1 : i < imps.length) (h2 : i < rest.length),
          imps[i] = neighbourSum isq g objs (idx + i) (rest[i])) ∧
        imps.sum = ∑ i : Fin rest.length, neighbourSum isq g objs (idx + i) (rest[i]) := by
  intro rest
  induction rest with
  | nil => intro idx; exact ⟨[], rfl, rfl, by intro i h1; simp at h1, by simp⟩
  | cons A rest ih =>
    intro idx
    obtain ⟨imps, himps, hl, hget, hsum⟩ := ih (idx + 1)
    refine ⟨neighbourSum isq g objs idx A :: imps, ?_, ?_, ?_, ?_⟩
    · simp only [impulsesFrom, impulseOf_eq isq g objs grid idx A hlen hgrid hin, himps]
    · simp [hl]
    · intro i h1 h2
      cases i with
      | zero => simp
      | succ i =>
        simp only [List.getElem_cons_succ]
        rw [hget i (by simpa using h1) (by simpa using h2)]
        congr 1
        omega
    · simp only [List.sum_cons, hsum, List.length_cons]
      rw [Fin.sum_univ_succ]
      simp only [Fin.val_zero, add_zero, Fin.getElem_fin, List.getElem_cons_zero, Fin.val_succ,
        List.getElem_cons_succ]
      congr 1
      apply Finset.sum_congr rfl
      intro i _
      congr 1
      omega

omit [FloorRing α] in
/-- Applying the impulse buffer lowers the total velocity by the sum of the buffer. -/
theorem totalVelocity_applyImpulses :
    ∀ (objs : List (Particle α)) (imps : List (Vec3 α)), imps.length = objs.length →
      totalVelocity (applyImpulses objs imps) = totalVelocity objs - imps.sum := by
  intro objs
  induction objs with
  | nil =>
    intro imps h
    have : imps = [] := List.length_eq_zero.mp (by simpa using h)
    subst this
    simp [totalVelocity, applyImpulses]
  | cons o objs ih =>
    intro imps h
    cases imps with
    | nil => simp at h
    | cons v imps =>
      have h' : imps.length = objs.length := by simpa using h
      have := ih imps h'
      simp only [totalVelocity, applyImpulses] at this
      simp only [totalVelocity, applyImpulses, List.zipWith_cons_cons, List.map_cons,
        List.sum_cons]
      rw [this, Vec3.sub_def]
      abel

/-- The pair terms of the impulse buffer are antisymmetric, so their double sum is zero. -/
theorem sum_neighbourSum_eq_zero (isq : α → α) (g : Globals α) (objs : List (Particle α)) :
    ∑ p : Fin objs.length, neighbourSum isq g objs p (objs[p]) = 0 := by
  have hT : ∀ p q : Fin objs.length,
      (if |gridX g (objs[q]).position - gridX g (objs[p]).position| ≤ 1 ∧
          |gridY g (objs[q]).position - gridY g (objs[p]).position| ≤ 1 then
        contributionAt isq g objs p (objs[p]) q else 0) =
      -(if |gridX g (objs[p]).position - gridX g (objs[q]).position| ≤ 1 ∧
          |gridY g (objs[p]).position - gridY g (objs[q]).position| ≤ 1 then
        contributionAt isq g objs q (objs[q]) p else 0) := by
    intro p q
    rw [abs_sub_comm (gridX g (objs[q]).position), abs_sub_comm (gridY g (objs[q]).position)]
    split_ifs
    · simp only [contributionAt, List.getElem?_eq_getElem p.isLt, List.getElem?_eq_getElem q.isLt]
      by_cases hpq : (p : Nat) = q
      · simp [hpq]
      · have hqp : ¬ (q : Nat) = p := fun h => hpq h.symm
        simp only [ne_eq, hpq, hqp, not_false_eq_true, if_true]
        exact collide_antisymm isq g _ _
    · rw [neg_zero]
  apply Vec3.eq_zero_of_eq_neg
  simp only [neighbourSum]
  conv_lhs => rw [Finset.sum_comm]
  rw [← Finset.sum_neg_distrib]
  apply Finset.sum_congr rfl
  intro q _
  rw [← Finset.sum_neg_distrib]
  apply Finset.sum_congr rfl
  intro p _
  rw [hT q p, neg_neg]

/-- One solver pass on a grid rebuilt from in-grid positions: the rebuild and the pass
succeed, and the impulse buffer holds the closed forms, whose sum is zero. -/
theorem solverPass_eq (isq : α → α) (g : Globals α) (objs : List (Particle α))
    (grid0 : List (List Nat)) (hlen : (grid0.length : Int) = g.cellsX * g.cellsY)
    (hin : ∀ o ∈ objs, (0 ≤ gridX g o.position ∧ gridX g o.position < g.cellsX) ∧
      (0 ≤ gridY g o.position ∧ gridY g o.position < g.cellsY)) :
    ∃ grid imps, rebuildGrid g objs grid0 = some grid ∧
      solverPass isq g grid objs = some (applyImpulses objs imps) ∧
      imps.length = objs.length ∧
      (∀ (i : Nat) (h1 : i < imps.length) (h2 : i < objs.length),
        imps[i] = neighbourSum isq g objs i (objs[i])) ∧
      imps.sum = 0 := by
  have hrange : ∀ o ∈ objs, 0 ≤ cellKey g o.position ∧
      cellKey g o.position < (grid0.length : Int) := by
    intro o ho
    obtain ⟨h1, h2⟩ := hin o ho
    rw [hlen]
    exact key_range _ _ _ _ h1.1 h1.2 h2.1 h2.2
  obtain ⟨grid, hgrid, hl, hb⟩ := rebuildGrid_eq g objs grid0 hrange
  have hlen' : (grid.length : Int) = g.cellsX * g.cellsY := by rw [hl, hlen]
  have hb' : ∀ k : Nat, k < grid.length → grid[k]? = some (membersFrom g objs 0 (k : Int)) :=
    fun k hk => hb k (by omega)
  obtain ⟨imps, himps, hil, hget, hsum⟩ := impulsesFrom_eq isq g objs grid hlen' hb' hin objs 0
  refine ⟨grid, imps, hgrid, ?_, hil, ?_, ?_⟩
  · simp only [solverPass, himps]
  · intro i h1 h2
    have := hget i h1 h2
    rwa [Nat.zero_add] at this
  · rw [hsum]
    have := sum_neighbourSum_eq_zero isq g objs
    simpa using this

/-- C5: for every set of bodies whose positions all fall in in-range grid cells and a grid
built from those positions by `generateGrid`, the impulse accumulated for `A` from `B` is the
exact negative of the impulse accumulated for `B` from `A`, and one solver pass leaves the
sum of all body velocities unchanged. -/
theorem solverPass_momentum (isq : α → α) (g : Globals α) (objs : List (Particle α))
    (grid0 : List (List Nat)) (_hgs : g.gridSize ≠ 0)
    (hlen : (grid0.length : Int) = g.cellsX * g.cellsY)
    (hin : ∀ o ∈ objs, (0 ≤ gridX g o.position ∧ gridX g o.position < g.cellsX) ∧
      (0 ≤ gridY g o.position ∧ gridY g o.position < g.cellsY)) :
    (∀ A B : Particle α, collide isq g A B 0 = -collide isq g B A 0) ∧
    ∃ grid objs', rebuildGrid g objs grid0 = some grid ∧
      solverPass isq g grid objs = some objs' ∧
      totalVelocity objs' = totalVelocity objs := by
  refine ⟨collide_antisymm isq g, ?_⟩
  obtain ⟨grid, imps, hgrid, hpass, hil, _, hsum⟩ := solverPass_eq isq g objs grid0 hlen hin
  refine ⟨grid, _, hgrid, hpass, ?_⟩
  rw [totalVelocity_applyImpulses objs imps hil, hsum, sub_zero]

omit [FloorRing α] in
/-- For an overlapping approaching pair the contribution of `B` to the buffer entry of `A`
is the negative of the textbook correction; subtracting it applies the correction once. -/
theorem collide_of_approaching (isq : α → α) (g : Globals α) (A B : Particle α)
    (hd1 : Vec3.dot (Vec3.sub A.position B.position) (Vec3.sub A.position B.position) > 1e-6)
    (hd2 : Vec3.dot (Vec3.sub A.position B.position) (Vec3.sub A.position B.position)
      ≤ (2 * g.radius) * (2 * g.radius))
    (hv : velAlongNormal isq A B < 0) :
    collide isq g A B 0 = -textbookCorrection isq g A B := by
  unfold velAlongNormal at hv
  dsimp only at hv
  unfold collide textbookCorrection
  dsimp only
  rw [if_pos ⟨hd1, hd2⟩, if_pos hv]
  apply Vec3.ext'
  · simp only [Vec3.add_def, Vec3.add_x, Vec3.neg_x, Vec3.zero_x, Vec3.scalarMul]
    ring
  · simp only [Vec3.add_def, Vec3.add_y, Vec3.neg_y, Vec3.zero_y, Vec3.scalarMul]
    ring
  · simp only [Vec3.add_def, Vec3.add_z, Vec3.neg_z, Vec3.zero_z, Vec3.scalarMul]
    ring

omit [FloorRing α] in
/-- A pair that is not approaching contributes nothing. -/
theorem collide_of_separating (isq : α → α) (g : Globals α) (A B : Particle α)
    (hv : 0 ≤ velAlongNormal isq A B) : collide isq g A B 0 = 0 := by
  unfold velAlongNormal at hv
  dsimp only at hv
  unfold collide
  dsimp only
  split_ifs with h1 h2
  · exact absurd h2 (not_lt.mpr hv)
  · rfl
  · rfl

/-- A solver pass over two bodies in equal or adjacent in-grid cells, for any velocities:
each body has its velocity reduced by the one contribution of the other. -/
theorem two_body_pass (isq : α → α) (g : Globals α) (A B : Particle α)
    (grid0 : List (List Nat)) (hlen : (grid0.length : Int) = g.cellsX * g.cellsY)
    (hA : (0 ≤ gridX g A.position ∧ gridX g A.position < g.cellsX) ∧
      (0 ≤ gridY g A.position ∧ gridY g A.position < g.cellsY))
    (hB : (0 ≤ gridX g B.position ∧ gridX g B.position < g.cellsX) ∧
      (0 ≤ gridY g B.position ∧ gridY g B.position < g.cellsY))
    (hnx : |gridX g A.position - gridX g B.position| ≤ 1)
    (hny : |gridY g A.position - gridY g B.position| ≤ 1) :
    ∃ grid, rebuildGrid g [A, B] grid0 = some grid ∧
      ∀ A1 B1 : Particle α, A1.position = A.position → B1.position = B.position →
        solverPass isq g grid [A1, B1] =
          some [{ A1 with velocity := Vec3.sub A1.velocity (collide isq g A1 B1 0) },
                { B1 with velocity := Vec3.sub B1.velocity (collide isq g B1 A1 0) }] := by
  have hin : ∀ o ∈ [A, B], (0 ≤ gridX g o.position ∧ gridX g o.position < g.cellsX) ∧
      (0 ≤ gridY g o.position ∧ gridY g o.position < g.cellsY) := by
    intro o ho
    simp only [List.mem_cons, List.mem_singleton, List.not_mem_nil, or_false] at ho
    rcases ho with rfl | rfl
    · exact hA
    · exact hB
  obtain ⟨grid, _, hgrid, _, _, _, _⟩ := solverPass_eq isq g [A, B] grid0 hlen hin
  refine ⟨grid, hgrid, ?_⟩
  intro A1 B1 hA1 hB1
  have hin1 : ∀ o ∈ [A1, B1], (0 ≤ gridX g o.position ∧ gridX g o.position < g.cellsX) ∧
      (0 ≤ gridY g o.position ∧ gridY g o.position < g.cellsY) := by
    intro o ho
    simp only [List.mem_cons, List.mem_singleton, List.not_mem_nil, or_false] at ho
    rcases ho with rfl | rfl
    · rw [hA1]; exact hA
    · rw [hB1]; exact hB
  obtain ⟨grid1, imps, hgrid1, hpass, hil, hget, _⟩ :=
    solverPass_eq isq g [A1, B1] grid0 hlen hin1
  have hsame : rebuildGrid g [A1, B1] grid0 = rebuildGrid g [A, B] grid0 := by
    simp only [rebuildGrid, generateGrid, generateGridFrom, hA1, hB1]
  have hg : grid1 = grid := by
    rw [hsame, hgrid] at hgrid1
    exact (Option.some.inj hgrid1).symm
  subst hg
  rw [hpass]
  match imps, hil, hget with
  | [i0, i1], _, hget =>
    have h0 := hget 0 (by simp) (by simp)
    have h1 := hget 1 (by simp) (by simp)
    simp only [List.getElem_cons_zero, List.getElem_cons_succ] at h0 h1
    have hnx' : |gridX g B.position - gridX g A.position| ≤ 1 := by rwa [abs_sub_comm]
    have hny' : |gridY g B.position - gridY g A.position| ≤ 1 := by rwa [abs_sub_comm]
    have e0 : neighbourSum isq g [A1, B1] 0 A1 = collide isq g A1 B1 0 := by
      simp [neighbourSum, Fin.sum_univ_two, contributionAt, hA1, hB1, hnx', hny']
    have e1 : neighbourSum isq g [A1, B1] 1 B1 = collide isq g B1 A1 0 := by
      simp [neighbourSum, Fin.sum_univ_two, contributionAt, hA1, hB1, hnx, hny]
    rw [h0, h1, e0, e1]
    simp [applyImpulses]

omit [FloorRing α] in
/-- After the textbook correction of both bodies the normal component of the relative
velocity is `-restitution` times what it was. -/
theorem velAlongNormal_after (isq : α → α) (g : Globals α) (A B : Particle α)
    (hs : isq (Vec3.dot (Vec3.sub A.position B.position) (Vec3.sub A.position B.position)) *
      isq (Vec3.dot (Vec3.sub A.position B.position) (Vec3.sub A.position B.position)) *
      Vec3.dot (Vec3.sub A.position B.position) (Vec3.sub A.position B.position) = 1) :
    velAlongNormal isq
        { A with velocity := Vec3.add A.velocity (textbookCorrection isq g A B) }
        { B with velocity := Vec3.sub B.velocity (textbookCorrection isq g A B) } =
      -g.restitution * velAlongNormal isq A B := by
  unfold velAlongNormal textbookCorrection
  dsimp only
  generalize isq (Vec3.dot (Vec3.sub A.position B.position)
    (Vec3.sub A.position B.position)) = s at hs ⊢
  simp only [Vec3.dot, Vec3.sub, Vec3.add, Vec3.mulScalar, Vec3.scalarMul] at hs ⊢
  have h05 : (0.5 : α) = 1 / 2 := by norm_num
  rw [h05]
  linear_combination
    (-(1 + g.restitution) *
      (((A.velocity.x - B.velocity.x) * ((A.position.x - B.position.x) * s) +
        (A.velocity.y - B.velocity.y) * ((A.position.y - B.position.y) * s) +
        (A.velocity.z - B.velocity.z) * ((A.position.z - B.position.z) * s)))) * hs

/-- C4: for two bodies `A` and `B`, the only bodies, in the same or adjacent in-grid cells,
with `eps < dist^2 ≤ (2 * radius)^2`, restitution `e ≥ 0` and `velAlongNormal < 0`, one
solver pass changes the velocity of `A` by `-0.5 * (1 + e) * velAlongNormal * normal` and
that of `B` by the opposite amount; the `velAlongNormal` after the pass is `-e` times the
one before and is `≥ 0`; and every further pass leaves the two bodies as they are. -/
theorem two_body_non_approach (isq : α → α) (g : Globals α) (A B : Particle α)
    (grid0 : List (List Nat)) (hisq : IsInverseSqrt isq) (_hgs : g.gridSize ≠ 0)
    (hlen : (grid0.length : Int) = g.cellsX * g.cellsY)
    (hA : (0 ≤ gridX g A.position ∧ gridX g A.position < g.cellsX) ∧
      (0 ≤ gridY g A.position ∧ gridY g A.position < g.cellsY))
    (hB : (0 ≤ gridX g B.position ∧ gridX g B.position < g.cellsX) ∧
      (0 ≤ gridY g B.position ∧ gridY g B.position < g.cellsY))
    (hnx : |gridX g A.position - gridX g B.position| ≤ 1)
    (hny : |gridY g A.position - gridY g B.position| ≤ 1)
    (hd1 : Vec3.dot (Vec3.sub A.position B.position) (Vec3.sub A.position B.position) > 1e-6)
    (hd2 : Vec3.dot (Vec3.sub A.position B.position) (Vec3.sub A.position B.position)
      ≤ (2 * g.radius) * (2 * g.radius))
    (he0 : 0 ≤ g.restitution) (_he1 : g.restitution < 1)
    (hv : velAlongNormal isq A B < 0) :
    ∃ grid A' B', rebuildGrid g [A, B] grid0 = some grid ∧
      solverPass isq g grid [A, B] = some [A', B'] ∧
      A'.velocity = Vec3.add A.velocity (textbookCorrection isq g A B) ∧
      B'.velocity = Vec3.sub B.velocity (textbookCorrection isq g A B) ∧
      A'.position = A.position ∧ B'.position = B.position ∧
      velAlongNormal isq A' B' = -g.restitution * velAlongNormal isq A B ∧
      0 ≤ velAlongNormal isq A' B' ∧
      ∀ n : Nat, solverLoop isq g grid (n + 1) [A, B] = some [A', B'] := by
  obtain ⟨grid, hgrid, hpass⟩ := two_body_pass isq g A B grid0 hlen hA hB hnx hny
  have hpos : (0 : α) < Vec3.dot (Vec3.sub A.position B.position)
      (Vec3.sub A.position B.position) := lt_trans (by norm_num) hd1
  obtain ⟨_, hs⟩ := hisq _ hpos
  have cA : collide isq g A B 0 = -textbookCorrection isq g A B :=
    collide_of_approaching isq g A B hd1 hd2 hv
  have cB : collide isq g B A 0 = textbookCorrection isq g A B := by
    rw [collide_antisymm, cA, neg_neg]
  have hA' : ({ A with velocity := Vec3.sub A.velocity (collide isq g A B 0) } : Particle α) =
      { A with velocity := Vec3.add A.velocity (textbookCorrection isq g A B) } := by
    rw [cA, Vec3.sub_def, Vec3.add_def, sub_neg_eq_add]
  have hB' : ({ B with velocity := Vec3.sub B.velocity (collide isq g B A 0) } : Particle α) =
      { B with velocity := Vec3.sub B.velocity (textbookCorrection isq g A B) } := by
    rw [cB]
  have hfirst := hpass A B rfl rfl
  rw [hA', hB'] at hfirst
  have hvan := velAlongNormal_after isq g A B hs
  have hnonneg : 0 ≤ velAlongNormal isq
      { A with velocity := Vec3.add A.velocity (textbookCorrection isq g A B) }
      { B with velocity := Vec3.sub B.velocity (textbookCorrection isq g A B) } := by
    rw [hvan]
    nlinarith
  have hvanBA : ∀ P Q : Particle α, velAlongNormal isq Q P = velAlongNormal isq P Q := by
    intro P Q
    have hdPQ : Vec3.dot (Vec3.sub Q.position P.position) (Vec3.sub Q.position P.position) =
        Vec3.dot (Vec3.sub P.position Q.position) (Vec3.sub P.position Q.position) := by
      simp only [Vec3.dot, Vec3.sub]; ring
    unfold velAlongNormal
    dsimp only
    rw [hdPQ]
    simp only [Vec3.dot, Vec3.sub, Vec3.mulScalar]
    ring
  have hfix : solverPass isq g grid
      [{ A with velocity := Vec3.add A.velocity (textbookCorrection isq g A B) },
       { B with velocity := Vec3.sub B.velocity (textbookCorrection isq g A B) }] =
      some [{ A with velocity := Vec3.add A.velocity (textbookCorrection isq g A B) },
       { B with velocity := Vec3.sub B.velocity (textbookCorrection isq g A B) }] := by
    have h2 := hpass
      { A with velocity := Vec3.add A.velocity (textbookCorrection isq g A B) }
      { B with velocity := Vec3.sub B.velocity (textbookCorrection isq g A B) } rfl rfl
    rw [collide_of_separating isq g _ _ hnonneg,
      collide_of_separating isq g _ _ (by rw [hvanBA]; exact hnonneg)] at h2
    simpa only [Vec3.sub_def, sub_zero] using h2
  have hloop : ∀ n : Nat, solverLoop isq g grid n
      [{ A with velocity := Vec3.add A.velocity (textbookCorrection isq g A B) },
       { B with velocity := Vec3.sub B.velocity (textbookCorrection isq g A B) }] =
      some [{ A with velocity := Vec3.add A.velocity (textbookCorrection isq g A B) },
       { B with velocity := Vec3.sub B.velocity (textbookCorrection isq g A B) }] := by
    intro n
    induction n with
    | zero => rfl
    | succ n ih => simp only [solverLoop, hfix, ih]
  refine ⟨grid, _, _, hgrid, hfirst, rfl, rfl, rfl, rfl, hvan, hnonneg, ?_⟩
  intro n
  simp only [solverLoop, hfirst, hloop n]

/-- The cells of the two bodies of the end-to-end fixture in the initial 100 x 75 grid. -/
theorem headOn_cells :
    gridX (initialGlobals : Globals α) (headOnA : Particle α).position = 12 ∧
    gridY (initialGlobals : Globals α) (headOnA : Particle α).position = 12 ∧
    gridX (initialGlobals : Globals α) (headOnB : Particle α).position = 13 ∧
    gridY (initialGlobals : Globals α) (headOnB : Particle α).position = 12 := by
  rw [initialGlobals_eq]
  refine ⟨?_, ?_, ?_, ?_⟩ <;> norm_num [gridX, gridY, toInt, headOnA, headOnB]

/-- Both bodies of the end-to-end fixture lie in cells of the initial grid. -/
theorem headOn_in_grid :
    ∀ o ∈ [(headOnA : Particle α), headOnB],
      (0 ≤ gridX (initialGlobals : Globals α) o.position ∧
        gridX (initialGlobals : Globals α) o.position < (initialGlobals : Globals α).cellsX) ∧
      (0 ≤ gridY (initialGlobals : Globals α) o.position ∧
        gridY (initialGlobals : Globals α) o.position < (initialGlobals : Globals α).cellsY) := by
  obtain ⟨h1, h2, h3, h4⟩ := headOn_cells (α := α)
  have hcx : (initialGlobals : Globals α).cellsX = 100 := by rw [initialGlobals_eq]
  have hcy : (initialGlobals : Globals α).cellsY = 75 := by rw [initialGlobals_eq]
  intro o ho
  simp only [List.mem_cons, List.mem_singleton, List.not_mem_nil, or_false] at ho
  rcases ho with rfl | rfl
  · rw [h1, h2, hcx, hcy]; decide
  · rw [h3, h4, hcx, hcy]; decide

/-- The grid of `main` has `cellsX * cellsY = 7500` buckets. -/
theorem initialGrid_length :
    (((List.replicate 7500 ([] : List Nat)).length : Nat) : Int) =
      (initialGlobals : Globals α).cellsX * (initialGlobals : Globals α).cellsY := by
  rw [initialGlobals_eq, List.length_replicate]
  norm_num

end SolverTheorems

/-- The square root of 25. -/
theorem sqrt_25 : Real.sqrt 25 = 5 := by
  rw [show (25 : ℝ) = 5 ^ 2 by norm_num, Real.sqrt_sq (by norm_num)]

/-- On the end-to-end fixture `velAlongNormal` is `-10` and the textbook correction of the
first body is `(-5.5, 0, 0)`. -/
theorem headOn_values :
    velAlongNormal (fun d : ℝ => (Real.sqrt d)⁻¹) headOnA headOnB = -10 ∧
    textbookCorrection (fun d : ℝ => (Real.sqrt d)⁻¹) initialGlobals headOnA headOnB =
      ⟨-5.5, 0, 0⟩ ∧
    Vec3.dot (Vec3.sub (headOnA : Particle ℝ).position (headOnB : Particle ℝ).position)
      (Vec3.sub (headOnA : Particle ℝ).position (headOnB : Particle ℝ).position) = 25 := by
  have hd : Vec3.dot (Vec3.sub (headOnA : Particle ℝ).position (headOnB : Particle ℝ).position)
      (Vec3.sub (headOnA : Particle ℝ).position (headOnB : Particle ℝ).position) = 25 := by
    norm_num [Vec3.dot, Vec3.sub, headOnA, headOnB]
  refine ⟨?_, ?_, hd⟩
  · unfold velAlongNormal
    dsimp only
    rw [hd, sqrt_25]
    norm_num [Vec3.dot, Vec3.sub, Vec3.mulScalar, headOnA, headOnB]
  · unfold textbookCorrection
    dsimp only
    rw [hd, sqrt_25, initialGlobals_eq]
    norm_num [Vec3.dot, Vec3.sub, Vec3.mulScalar, Vec3.scalarMul, headOnA, headOnB]

/-- Witness of C4, the end-to-end scenario: radius 4, positions `(100, 100)` and
`(105, 100)`, velocities `(5, 0)` and `(-5, 0)`, restitution 0.1; one pass gives the
x-velocities `-0.5` and `+0.5` and `velAlongNormal = 1`. -/
theorem two_body_non_approach_witness :
    velAlongNormal (fun d : ℝ => (Real.sqrt d)⁻¹) headOnA headOnB = -10 ∧
    ∃ grid A' B',
      rebuildGrid (initialGlobals : Globals ℝ) [headOnA, headOnB] (List.replicate 7500 []) =
        some grid ∧
      solverPass (fun d : ℝ => (Real.sqrt d)⁻¹) initialGlobals grid [headOnA, headOnB] =
        some [A', B'] ∧
      A'.velocity = ⟨-0.5, 0, 0⟩ ∧ B'.velocity = ⟨0.5, 0, 0⟩ ∧
      velAlongNormal (fun d : ℝ => (Real.sqrt d)⁻¹) A' B' = 1 ∧
      ∀ n : Nat, solverLoop (fun d : ℝ => (Real.sqrt d)⁻¹) initialGlobals grid (n + 1)
        [headOnA, headOnB] = some [A', B'] := by
  obtain ⟨hvan0, htc, hd⟩ := headOn_values
  obtain ⟨c1, c2, c3, c4⟩ := headOn_cells (α := ℝ)
  have hin := headOn_in_grid (α := ℝ)
  obtain ⟨grid, A', B', h1, h2, hvA, hvB, _, _, hvan, _, hloop⟩ :=
    two_body_non_approach (fun d : ℝ => (Real.sqrt d)⁻¹) initialGlobals headOnA headOnB
      (List.replicate 7500 []) isInverseSqrt_real
      (by rw [initialGlobals_eq]; decide) initialGrid_length
      (hin _ (by simp)) (hin _ (by simp))
      (by rw [c1, c3]; decide) (by rw [c2, c4]; decide)
      (by rw [hd]; norm_num) (by rw [hd, initialGlobals_eq]; norm_num)
      (by rw [initialGlobals_eq]; norm_num) (by rw [initialGlobals_eq]; norm_num)
      (by rw [hvan0]; norm_num)
  refine ⟨hvan0, grid, A', B', h1, h2, ?_, ?_, ?_, hloop⟩
  · rw [hvA, htc]
    norm_num [Vec3.add, headOnA]
  · rw [hvB, htc]
    norm_num [Vec3.sub, headOnB]
  · rw [hvan, hvan0, initialGlobals_eq]
    norm_num

/-- Outside the grid the pair is not corrected at all: after the resize to 804 x 600 the
bodies at `(800, 300)` and `(800, 305)` overlap (squared distance 25) and approach
(`velAlongNormal = -10`), their cell column is `100 = cellsX`, the test of line 373 skips
their own column, and one solver pass leaves both velocities as they were. -/
theorem edge_pair_no_impulse :
    Vec3.dot (Vec3.sub (edgeA : Particle ℝ).position (edgeB : Particle ℝ).position)
      (Vec3.sub (edgeA : Particle ℝ).position (edgeB : Particle ℝ).position) = 25 ∧
    velAlongNormal (fun d : ℝ => (Real.sqrt d)⁻¹) edgeA edgeB = -10 ∧
    gridX (resizedGlobals : Globals ℝ) (edgeA : Particle ℝ).position = 100 ∧
    gridX (resizedGlobals : Globals ℝ) (edgeB : Particle ℝ).position = 100 ∧
    (resizedGlobals : Globals ℝ).cellsX = 100 ∧
    Option.map (List.map (fun o : Particle ℝ => o.velocity))
        ((rebuildGrid (resizedGlobals : Globals ℝ) [edgeA, edgeB]
            (List.replicate 7500 [])).bind
          (fun grid => solverPass (fun d : ℝ => (Real.sqrt d)⁻¹) resizedGlobals grid
            [edgeA, edgeB])) =
      some [⟨0, 5, 0⟩, ⟨0, -5, 0⟩] := by
  have hd : Vec3.dot (Vec3.sub (edgeA : Particle ℝ).position (edgeB : Particle ℝ).position)
      (Vec3.sub (edgeA : Particle ℝ).position (edgeB : Particle ℝ).position) = 25 := by
    norm_num [Vec3.dot, Vec3.sub, edgeA, edgeB]
  have hxA : gridX (resizedGlobals : Globals ℝ) (edgeA : Particle ℝ).position = 100 := by
    rw [resizedGlobals_eq]; norm_num [gridX, toInt, edgeA]
  have hyA : gridY (resizedGlobals : Globals ℝ) (edgeA : Particle ℝ).position = 37 := by
    rw [resizedGlobals_eq]; norm_num [gridY, toInt, edgeA]
  have hxB : gridX (resizedGlobals : Globals ℝ) (edgeB : Particle ℝ).position = 100 := by
    rw [resizedGlobals_eq]; norm_num [gridX, toInt, edgeB]
  have hyB : gridY (resizedGlobals : Globals ℝ) (edgeB : Particle ℝ).position = 38 := by
    rw [resizedGlobals_eq]; norm_num [gridY, toInt, edgeB]
  have hcx : (resizedGlobals : Globals ℝ).cellsX = 100 := by rw [resizedGlobals_eq]
  have hcy : (resizedGlobals : Globals ℝ).cellsY = 75 := by rw [resizedGlobals_eq]
  have hkA : cellKey (resizedGlobals : Globals ℝ) (edgeA : Particle ℝ).position = 3800 := by
    rw [cellKey, hxA, hyA, hcx]; decide
  have hkB : cellKey (resizedGlobals : Globals ℝ) (edgeB : Particle ℝ).position = 3900 := by
    rw [cellKey, hxB, hyB, hcx]; decide
  have hrange : ∀ o ∈ [(edgeA : Particle ℝ), edgeB],
      0 ≤ cellKey (resizedGlobals : Globals ℝ) o.position ∧
      cellKey (resizedGlobals : Globals ℝ) o.position <
        (((List.replicate 7500 ([] : List Nat)).length : Nat) : Int) := by
    intro o ho
    simp only [List.mem_cons, List.mem_singleton, List.not_mem_nil, or_false] at ho
    rw [List.length_replicate]
    rcases ho with rfl | rfl
    · rw [hkA]; decide
    · rw [hkB]; decide
  obtain ⟨grid, hgrid, hl, hb⟩ :=
    rebuildGrid_eq (resizedGlobals : Globals ℝ) [edgeA, edgeB] (List.replicate 7500 []) hrange
  rw [List.length_replicate] at hl hb
  have hm : ∀ k : Int, k ≠ 3800 → k ≠ 3900 →
      membersFrom (resizedGlobals : Globals ℝ) [(edgeA : Particle ℝ), edgeB] 0 k = [] := by
    intro k h1 h2
    have h1' : ¬ (3800 : Int) = k := fun h => h1 h.symm
    have h2' : ¬ (3900 : Int) = k := fun h => h2 h.symm
    simp only [membersFrom, hkA, hkB, h1', h2', if_false]
  have hloop : ∀ (p : Nat) (A : Particle ℝ) (keys : List Int),
      (∀ key ∈ keys, 0 ≤ key ∧ key < 7500 ∧ key ≠ 3800 ∧ key ≠ 3900) →
      neighbourLoop (fun d : ℝ => (Real.sqrt d)⁻¹) resizedGlobals [edgeA, edgeB] grid p A keys
        Vec3.zero = some 0 := by
    intro p A keys hk
    rw [neighbourLoop_eq _ _ _ grid p A
      (fun key => membersFrom (resizedGlobals : Globals ℝ) [(edgeA : Particle ℝ), edgeB] 0 key)]
    · rw [Vec3.zero_def, zero_add]
      congr 1
      apply List.sum_eq_zero
      intro v hv
      obtain ⟨key, hkey, rfl⟩ := List.mem_map.mp hv
      obtain ⟨_, _, h3, h4⟩ := hk key hkey
      rw [hm key h3 h4]
      rfl
    · intro key hkey
      obtain ⟨h0, h1, h3, h4⟩ := hk key hkey
      constructor
      · have := hb key.toNat (by omega)
        rwa [Int.toNat_of_nonneg h0] at this
      · intro c hc
        rw [hm key h3 h4] at hc
        simp at hc
  have hnA : neighbourKeys 100 75 100 37 = [3699, 3799, 3899] := by decide
  have hnB : neighbourKeys 100 75 100 38 = [3799, 3899, 3999] := by decide
  have hiA : impulseOf (fun d : ℝ => (Real.sqrt d)⁻¹) resizedGlobals [edgeA, edgeB] grid 0
      edgeA = some 0 := by
    rw [impulseOf, hcx, hcy, hxA, hyA, hnA]
    apply hloop
    intro key hkey
    simp only [List.mem_cons, List.mem_singleton, List.not_mem_nil, or_false] at hkey
    rcases hkey with rfl | rfl | rfl <;> decide
  have hiB : impulseOf (fun d : ℝ => (Real.sqrt d)⁻¹) resizedGlobals [edgeA, edgeB] grid 1
      edgeB = some 0 := by
    rw [impulseOf, hcx, hcy, hxB, hyB, hnB]
    apply hloop
    intro key hkey
    simp only [List.mem_cons, List.mem_singleton, List.not_mem_nil, or_false] at hkey
    rcases hkey with rfl | rfl | rfl <;> decide
  refine ⟨hd, ?_, hxA, hxB, hcx, ?_⟩
  · unfold velAlongNormal
    dsimp only
    rw [hd, sqrt_25]
    norm_num [Vec3.dot, Vec3.sub, Vec3.mulScalar, edgeA, edgeB]
  · rw [hgrid, Option.some_bind]
    simp only [solverPass, impulsesFrom, hiA, hiB, applyImpulses, List.zipWith_cons_cons,
      List.zipWith_nil_right, Option.map_some', List.map_cons, List.map_nil, Vec3.sub_def,
      sub_zero]
    rfl

/-- Witness of C5 on the end-to-end fixture: the total velocity is zero before and after. -/
theorem solverPass_momentum_witness :
    totalVelocity [(headOnA : Particle ℝ), headOnB] = ⟨0, 0, 0⟩ ∧
    ∃ grid objs',
      rebuildGrid (initialGlobals : Globals ℝ) [headOnA, headOnB] (List.replicate 7500 []) =
        some grid ∧
      solverPass (fun d : ℝ => (Real.sqrt d)⁻¹) initialGlobals grid [headOnA, headOnB] =
        some objs' ∧
      totalVelocity objs' = totalVelocity [(headOnA : Particle ℝ), headOnB] :=
  ⟨by
    apply Vec3.ext' <;>
      norm_num [totalVelocity, headOnA, headOnB, Vec3.add_x, Vec3.add_y, Vec3.add_z,
        Vec3.zero_x, Vec3.zero_y, Vec3.zero_z],
   (solverPass_momentum (fun d : ℝ => (Real.sqrt d)⁻¹) initialGlobals
    [headOnA, headOnB] (List.replicate 7500 []) (by rw [initialGlobals_eq]; decide)
    initialGrid_length headOn_in_grid).2⟩

/-- Witness of C7 on the end-to-end fixture in the initial 100 x 75 grid. -/
theorem rebuildGrid_complete_witness :
    ∃ grid, rebuildGrid (initialGlobals : Globals ℚ) [headOnA, headOnB]
        (List.replicate 7500 [7]) = some grid ∧
      grid.length = (List.replicate 7500 [7]).length ∧
      ∀ (p : Nat) (hp : p < [(headOnA : Particle ℚ), headOnB].length),
        (grid.map (fun bucket => bucket.count p)).sum = 1 ∧
        ∀ (k : Nat) (hk : k < grid.length),
          (grid[k]).count p =
            if (k : Int) =
              ⌊([(headOnA : Particle ℚ), headOnB][p]).position.x /
                (((initialGlobals : Globals ℚ).gridSize : Int) : ℚ)⌋ +
              ⌊([(headOnA : Particle ℚ), headOnB][p]).position.y /
                (((initialGlobals : Globals ℚ).gridSize : Int) : ℚ)⌋ *
                (initialGlobals : Globals ℚ).cellsX then 1 else 0 :=
  rebuildGrid_complete (initialGlobals : Globals ℚ) [headOnA, headOnB]
    (List.replicate 7500 [7]) (by rw [initialGlobals_eq]; decide)
    (by rw [initialGlobals_eq, List.length_replicate]; norm_num)
    (by
      intro o ho
      simp only [List.mem_cons, List.mem_singleton, List.not_mem_nil, or_false] at ho
      rw [initialGlobals_eq]
      rcases ho with rfl | rfl <;> norm_num [headOnA, headOnB])


end ParticleSim
